import Mathlib

/-! # Verification of the `cache` package: namespace decorator and driver registry

Shallow embedding of `namespace.go`, `registry.go`, `errors.go`, `cache.go` and
`config.go`.

Modelling conventions.

* A Go `string` is a byte sequence; it is modelled by a Lean `String`, a
  sequence of characters, which covers the Go strings that are valid UTF-8.
  The only string operations the functions below use are concatenation,
  comparison with `""`, `strings.HasPrefix`, `strings.TrimPrefix` and
  `strings.TrimSpace`; on valid UTF-8 they give the same result on characters
  as on bytes.
* A Go `error` result is `Option GoError`; `none` is `nil`.
* A backend (a value of the interface `Cache`) is a record of methods over an
  explicit backend state `σ`: a method takes the state before the call and
  returns its Go results together with the state after the call.
* A Go `map[string]T` is an association list with the lookup and update
  operations of a map (`GoMap`).
* Package-level variables (`drivers`) and the standard output are fields of an
  explicit process state which is passed through `Register`, `New`, `Drivers`.
-/

set_option autoImplicit false

/-! ## Basic types -/

/-- Go `context.Context`: an opaque token which every operation forwards. -/
structure Context where
  id : Nat
  deriving DecidableEq, Repr

/-- Go `time.Duration`: a signed count of nanoseconds. -/
abbrev Duration := Int

/-- Go `interface{}` values stored in a cache. -/
inductive Value where
  | nil
  | str (s : String)
  | int (i : Int)
  | bytes (b : List UInt8)
  deriving DecidableEq, Repr

/-- Go `error` values (non-nil). The six sentinels of `errors.go` are distinct
constructors, so that comparison by identity is comparison of constructors;
`errorf` is a value built by `fmt.Errorf` (format and arguments kept apart),
`ErrInvalidConfig` is the string type of `config.go`, and `other` stands for
any error a backend makes up itself. -/
inductive GoError where
  | ErrNotFound
  | ErrInvalidValue
  | ErrKeyExpired
  | ErrConnectionLost
  | ErrTimeout
  | ErrCacheFull
  | errorf (format : String) (args : List String)
  | ErrInvalidConfig (msg : String)
  | other (msg : String)
  deriving DecidableEq, Repr

/-- Go `map[string]T` as an association list; `GoMap.lookup` and `GoMap.set`
below are the only ways the package reads and writes it. -/
abbrev GoMap (α : Type) := List (String × α)

/-- Map read `v, ok := m[k]`: the entry stored under `k`, if any. -/
def GoMap.lookup {α : Type} (m : GoMap α) (k : String) : Option α :=
  match m with
  | [] => none
  | (k', v) :: rest => if k' = k then some v else GoMap.lookup rest k

/-- Map write `m[k] = v`: overwrite the entry under `k` when there is one,
add a new entry otherwise. -/
def GoMap.set {α : Type} (m : GoMap α) (k : String) (v : α) : GoMap α :=
  match m with
  | [] => [(k, v)]
  | (k', v') :: rest => if k' = k then (k, v) :: rest else (k', v') :: GoMap.set rest k v

/-- The keys a `for k := range m` loop visits (in the order the list has). -/
def GoMap.keys {α : Type} (m : GoMap α) : List String :=
  m.map (fun kv => kv.1)

/-! ## `strings.HasPrefix` and `strings.TrimPrefix` -/

/-- Go `strings.HasPrefix(s, prefix)`:
`len(s) >= len(prefix) && s[:len(prefix)] == prefix`. -/
def HasPrefix (s pre : String) : Bool :=
  decide (s.length ≥ pre.length) && (s.data.take pre.length == pre.data)

/-- Go `strings.TrimPrefix(s, prefix)`:
`if HasPrefix(s, prefix) { return s[len(prefix):] }; return s`. -/
def TrimPrefix (s pre : String) : String :=
  if HasPrefix s pre then ⟨s.data.drop pre.length⟩ else s

/-- Go `unicode.IsSpace`: in the Latin-1 range the characters tab, line feed,
vertical tab, form feed, carriage return, space, U+0085 and U+00A0; above it
the characters with the Unicode property White_Space. -/
def unicodeIsSpace (r : Char) : Bool :=
  if r.toNat ≤ 0xFF then
    r.toNat = 0x09 || r.toNat = 0x0A || r.toNat = 0x0B || r.toNat = 0x0C || r.toNat = 0x0D ||
      r.toNat = 0x20 || r.toNat = 0x85 || r.toNat = 0xA0
  else
    r.toNat = 0x1680 || (0x2000 ≤ r.toNat && r.toNat ≤ 0x200A) || r.toNat = 0x2028 ||
      r.toNat = 0x2029 || r.toNat = 0x202F || r.toNat = 0x205F || r.toNat = 0x3000

/-- Go `strings.TrimSpace(s)`: `s` with all leading and trailing white space
(`unicode.IsSpace`) removed. -/
def TrimSpace (s : String) : String :=
  ⟨((s.data.dropWhile unicodeIsSpace).reverse.dropWhile unicodeIsSpace).reverse⟩

/-! ## Errors (`errors.go`) -/

/-- Go `errors.Is(err, target)` on the error values of this model: none of
them has an `Unwrap` or an `Is` method, so the chain `errors.Is` walks is the
error itself and the test is the comparison `err == target`. -/
def errorsIs (err target : Option GoError) : Bool :=
  match err, target with
  | none, _ => decide (err = target)
  | _, none => decide (err = target)
  | some e, some t => decide (e = t)

/-- Go `IsNotFound`. -/
def IsNotFound (err : Option GoError) : Bool :=
  errorsIs err (some GoError.ErrNotFound)

/-- Go `IsTimeout`. -/
def IsTimeout (err : Option GoError) : Bool :=
  errorsIs err (some GoError.ErrTimeout)

/-! ## The `Cache` interface (`cache.go`) -/

/-- The interface `Cache`: one field per method, over a backend state `σ`. -/
structure Cache (σ : Type) where
  Get : Context → String → σ → (String × Option GoError) × σ
  GetBytes : Context → String → σ → (List UInt8 × Option GoError) × σ
  Set : Context → String → Value → Duration → σ → Option GoError × σ
  SetNX : Context → String → Value → Duration → σ → (Bool × Option GoError) × σ
  Delete : Context → String → σ → Option GoError × σ
  Exists : Context → List String → σ → (Int × Option GoError) × σ
  MGet : Context → List String → σ → (List Value × Option GoError) × σ
  MSet : Context → GoMap Value → σ → Option GoError × σ
  MDelete : Context → List String → σ → Option GoError × σ
  Incr : Context → String → σ → (Int × Option GoError) × σ
  IncrBy : Context → String → Int → σ → (Int × Option GoError) × σ
  Decr : Context → String → σ → (Int × Option GoError) × σ
  DecrBy : Context → String → Int → σ → (Int × Option GoError) × σ
  TTL : Context → String → σ → (Duration × Option GoError) × σ
  Expire : Context → String → Duration → σ → Option GoError × σ
  Persist : Context → String → σ → Option GoError × σ
  HGet : Context → String → String → σ → (String × Option GoError) × σ
  HSet : Context → String → String → Value → σ → Option GoError × σ
  HGetAll : Context → String → σ → (GoMap String × Option GoError) × σ
  HDel : Context → String → List String → σ → Option GoError × σ
  LPush : Context → String → List Value → σ → Option GoError × σ
  RPush : Context → String → List Value → σ → Option GoError × σ
  LPop : Context → String → σ → (String × Option GoError) × σ
  RPop : Context → String → σ → (String × Option GoError) × σ
  LLen : Context → String → σ → (Int × Option GoError) × σ
  SAdd : Context → String → List Value → σ → Option GoError × σ
  SMembers : Context → String → σ → (List String × Option GoError) × σ
  SRem : Context → String → List Value → σ → Option GoError × σ
  Ping : Context → σ → Option GoError × σ
  FlushDB : Context → σ → Option GoError × σ
  Keys : Context → String → σ → (List String × Option GoError) × σ
  Close : σ → Option GoError × σ

/-! ## `Namespace` (`namespace.go`) -/

/-- The struct `Namespace`: the wrapped cache, the prefix (field `prefix` in
the source) and the separator. -/
structure Namespace (σ : Type) where
  cache : Cache σ
  pfx : String
  sep : String

/-- Go `NamespaceOption`, a `func(*Namespace)`: the update it performs. -/
abbrev NamespaceOption (σ : Type) := Namespace σ → Namespace σ

/-- Go `WithSeparator(sep)`: the option that assigns `n.sep = sep`. -/
def WithSeparator {σ : Type} (sep : String) : NamespaceOption σ :=
  fun n => { n with sep := sep }

/-- Go `NewNamespace`: the prefix is trimmed of white space, the separator
is `:`, and the options are applied in order. -/
def NewNamespace {σ : Type} (cache : Cache σ) (pfx : String)
    (opts : List (NamespaceOption σ)) : Namespace σ :=
  let ns : Namespace σ := { cache := cache, pfx := TrimSpace pfx, sep := ":" }
  opts.foldl (fun ns opt => opt ns) ns

namespace Namespace

variable {σ : Type}

/-- Go `(*Namespace).key`. -/
def key (n : Namespace σ) (key : String) : String :=
  if n.pfx = "" then key
  else n.pfx ++ n.sep ++ key

/-- Go `(*Namespace).keys`: when the prefix is empty the argument slice itself
is returned; otherwise a slice of `len(keys)` empty strings is made and slot
`i` is assigned `n.key(keys[i])`, for `i` from `0` upwards. -/
def keys (n : Namespace σ) (keys : List String) : List String :=
  if n.pfx = "" then keys
  else
    keys.enum.foldl (fun result ik => result.set ik.1 (n.key ik.2))
      (List.replicate keys.length "")

/-- Go `(*Namespace).stripPrefix`. -/
def stripPrefix (n : Namespace σ) (key : String) : String :=
  if n.pfx = "" then key
  else
    let pre := n.pfx ++ n.sep
    if HasPrefix key pre then TrimPrefix key pre
    else key

/-- Go `(*Namespace).SubNamespace`: compose the new prefix, build the
sub-namespace on the same cache and separator, then apply the options in
order. -/
def SubNamespace (n : Namespace σ) (subPrefix : String)
    (opts : List (NamespaceOption σ)) : Namespace σ :=
  let newPrefix := if n.pfx ≠ "" then n.pfx ++ (n.sep ++ subPrefix) else subPrefix
  let sub : Namespace σ := { cache := n.cache, pfx := newPrefix, sep := n.sep }
  opts.foldl (fun sub opt => opt sub) sub

/-- Go `(*Namespace).Get`. -/
def Get (n : Namespace σ) (ctx : Context) (key : String) (s : σ) :
    (String × Option GoError) × σ :=
  n.cache.Get ctx (n.key key) s

/-- Go `(*Namespace).GetBytes`. -/
def GetBytes (n : Namespace σ) (ctx : Context) (key : String) (s : σ) :
    (List UInt8 × Option GoError) × σ :=
  n.cache.GetBytes ctx (n.key key) s

/-- Go `(*Namespace).Set`. -/
def Set (n : Namespace σ) (ctx : Context) (key : String) (value : Value)
    (expiration : Duration) (s : σ) :
    Option GoError × σ :=
  n.cache.Set ctx (n.key key) value expiration s

/-- Go `(*Namespace).SetNX`. -/
def SetNX (n : Namespace σ) (ctx : Context) (key : String) (value : Value)
    (expiration : Duration) (s : σ) :
    (Bool × Option GoError) × σ :=
  n.cache.SetNX ctx (n.key key) value expiration s

/-- Go `(*Namespace).Delete`. -/
def Delete (n : Namespace σ) (ctx : Context) (key : String) (s : σ) :
    Option GoError × σ :=
  n.cache.Delete ctx (n.key key) s

/-- Go `(*Namespace).Incr`. -/
def Incr (n : Namespace σ) (ctx : Context) (key : String) (s : σ) :
    (Int × Option GoError) × σ :=
  n.cache.Incr ctx (n.key key) s

/-- Go `(*Namespace).IncrBy`. -/
def IncrBy (n : Namespace σ) (ctx : Context) (key : String) (value : Int) (s : σ) :
    (Int × Option GoError) × σ :=
  n.cache.IncrBy ctx (n.key key) value s

/-- Go `(*Namespace).Decr`. -/
def Decr (n : Namespace σ) (ctx : Context) (key : String) (s : σ) :
    (Int × Option GoError) × σ :=
  n.cache.Decr ctx (n.key key) s

/-- Go `(*Namespace).DecrBy`. -/
def DecrBy (n : Namespace σ) (ctx : Context) (key : String) (value : Int) (s : σ) :
    (Int × Option GoError) × σ :=
  n.cache.DecrBy ctx (n.key key) value s

/-- Go `(*Namespace).TTL`. -/
def TTL (n : Namespace σ) (ctx : Context) (key : String) (s : σ) :
    (Duration × Option GoError) × σ :=
  n.cache.TTL ctx (n.key key) s

/-- Go `(*Namespace).Expire`. -/
def Expire (n : Namespace σ) (ctx : Context) (key : String) (expiration : Duration) (s : σ) :
    Option GoError × σ :=
  n.cache.Expire ctx (n.key key) expiration s

/-- Go `(*Namespace).Persist`. -/
def Persist (n : Namespace σ) (ctx : Context) (key : String) (s : σ) :
    Option GoError × σ :=
  n.cache.Persist ctx (n.key key) s

/-- Go `(*Namespace).HGet`. -/
def HGet (n : Namespace σ) (ctx : Context) (key : String) (field : String) (s : σ) :
    (String × Option GoError) × σ :=
  n.cache.HGet ctx (n.key key) field s

/-- Go `(*Namespace).HSet`. -/
def HSet (n : Namespace σ) (ctx : Context) (key : String) (field : String) (value : Value) (s : σ) :
    Option GoError × σ :=
  n.cache.HSet ctx (n.key key) field value s

/-- Go `(*Namespace).HGetAll`. -/
def HGetAll (n : Namespace σ) (ctx : Context) (key : String) (s : σ) :
    (GoMap String × Option GoError) × σ :=
  n.cache.HGetAll ctx (n.key key) s

/-- Go `(*Namespace).HDel`. -/
def HDel (n : Namespace σ) (ctx : Context) (key : String) (fields : List String) (s : σ) :
    Option GoError × σ :=
  n.cache.HDel ctx (n.key key) fields s

/-- Go `(*Namespace).LPush`. -/
def LPush (n : Namespace σ) (ctx : Context) (key : String) (values : List Value) (s : σ) :
    Option GoError × σ :=
  n.cache.LPush ctx (n.key key) values s

/-- Go `(*Namespace).RPush`. -/
def RPush (n : Namespace σ) (ctx : Context) (key : String) (values : List Value) (s : σ) :
    Option GoError × σ :=
  n.cache.RPush ctx (n.key key) values s

/-- Go `(*Namespace).LPop`. -/
def LPop (n : Namespace σ) (ctx : Context) (key : String) (s : σ) :
    (String × Option GoError) × σ :=
  n.cache.LPop ctx (n.key key) s

/-- Go `(*Namespace).RPop`. -/
def RPop (n : Namespace σ) (ctx : Context) (key : String) (s : σ) :
    (String × Option GoError) × σ :=
  n.cache.RPop ctx (n.key key) s

/-- Go `(*Namespace).LLen`. -/
def LLen (n : Namespace σ) (ctx : Context) (key : String) (s : σ) :
    (Int × Option GoError) × σ :=
  n.cache.LLen ctx (n.key key) s

/-- Go `(*Namespace).SAdd`. -/
def SAdd (n : Namespace σ) (ctx : Context) (key : String) (members : List Value) (s : σ) :
    Option GoError × σ :=
  n.cache.SAdd ctx (n.key key) members s

/-- Go `(*Namespace).SMembers`. -/
def SMembers (n : Namespace σ) (ctx : Context) (key : String) (s : σ) :
    (List String × Option GoError) × σ :=
  n.cache.SMembers ctx (n.key key) s

/-- Go `(*Namespace).SRem`. -/
def SRem (n : Namespace σ) (ctx : Context) (key : String) (members : List Value) (s : σ) :
    Option GoError × σ :=
  n.cache.SRem ctx (n.key key) members s

/-- Go `(*Namespace).Exists`. -/
def Exists (n : Namespace σ) (ctx : Context) (keys : List String) (s : σ) :
    (Int × Option GoError) × σ :=
  n.cache.Exists ctx (n.keys keys) s

/-- Go `(*Namespace).MGet`. -/
def MGet (n : Namespace σ) (ctx : Context) (keys : List String) (s : σ) :
    (List Value × Option GoError) × σ :=
  n.cache.MGet ctx (n.keys keys) s

/-- Go `(*Namespace).MSet`: a fresh map receives `n.key(k) ↦ v` for every entry
`k ↦ v` of `pairs`, and is handed to the backend. -/
def MSet (n : Namespace σ) (ctx : Context) (pairs : GoMap Value) (s : σ) :
    Option GoError × σ :=
  let namespacedPairs : GoMap Value :=
    pairs.foldl (fun m kv => GoMap.set m (n.key kv.1) kv.2) []
  n.cache.MSet ctx namespacedPairs s

/-- Go `(*Namespace).MDelete`. -/
def MDelete (n : Namespace σ) (ctx : Context) (keys : List String) (s : σ) :
    Option GoError × σ :=
  n.cache.MDelete ctx (n.keys keys) s

/-- Go `(*Namespace).Ping`. -/
def Ping (n : Namespace σ) (ctx : Context) (s : σ) : Option GoError × σ :=
  n.cache.Ping ctx s

/-- Go `(*Namespace).FlushDB`. -/
def FlushDB (n : Namespace σ) (ctx : Context) (s : σ) : Option GoError × σ :=
  n.cache.FlushDB ctx s

/-- Go `(*Namespace).FlushNamespace`. -/
def FlushNamespace (n : Namespace σ) (ctx : Context) (s : σ) : Option GoError × σ :=
  if n.pfx = "" then
    n.cache.FlushDB ctx s
  else
    let pattern := n.pfx ++ n.sep ++ "*"
    match n.cache.Keys ctx pattern s with
    | ((_, some err), s1) => (some err, s1)
    | ((keys, none), s1) =>
      if keys.length = 0 then (none, s1)
      else n.cache.MDelete ctx keys s1

/-- Go `(*Namespace).Keys`: the pattern is rewritten by `key`; on success a
slice of `len(keys)` empty strings is made and slot `i` is assigned
`n.stripPrefix(keys[i])`. A `nil` slice is the empty list. -/
def Keys (n : Namespace σ) (ctx : Context) (pattern : String) (s : σ) :
    (List String × Option GoError) × σ :=
  let namespacedPattern := n.key pattern
  match n.cache.Keys ctx namespacedPattern s with
  | ((_, some err), s1) => (([], some err), s1)
  | ((keys, none), s1) =>
    let result := keys.enum.foldl (fun result ik => result.set ik.1 (n.stripPrefix ik.2))
      (List.replicate keys.length "")
    ((result, none), s1)

/-- Go `(*Namespace).Close`. -/
def Close (n : Namespace σ) (s : σ) : Option GoError × σ :=
  n.cache.Close s

/-- Go `(*Namespace).Prefix`. -/
def Prefix (n : Namespace σ) : String := n.pfx

/-- Go `(*Namespace).Separator`. -/
def Separator (n : Namespace σ) : String := n.sep

/-- Go `(*Namespace).Unwrap`. -/
def Unwrap (n : Namespace σ) : Cache σ := n.cache

end Namespace

/-! ## Observing the calls a decorator makes -/

/-- A call made on a backend: the method and the arguments it was given. -/
inductive Call where
  | Get (ctx : Context) (key : String)
  | GetBytes (ctx : Context) (key : String)
  | Set (ctx : Context) (key : String) (value : Value) (expiration : Duration)
  | SetNX (ctx : Context) (key : String) (value : Value) (expiration : Duration)
  | Delete (ctx : Context) (key : String)
  | Exists (ctx : Context) (keys : List String)
  | MGet (ctx : Context) (keys : List String)
  | MSet (ctx : Context) (pairs : GoMap Value)
  | MDelete (ctx : Context) (keys : List String)
  | Incr (ctx : Context) (key : String)
  | IncrBy (ctx : Context) (key : String) (value : Int)
  | Decr (ctx : Context) (key : String)
  | DecrBy (ctx : Context) (key : String) (value : Int)
  | TTL (ctx : Context) (key : String)
  | Expire (ctx : Context) (key : String) (expiration : Duration)
  | Persist (ctx : Context) (key : String)
  | HGet (ctx : Context) (key : String) (field : String)
  | HSet (ctx : Context) (key : String) (field : String) (value : Value)
  | HGetAll (ctx : Context) (key : String)
  | HDel (ctx : Context) (key : String) (fields : List String)
  | LPush (ctx : Context) (key : String) (values : List Value)
  | RPush (ctx : Context) (key : String) (values : List Value)
  | LPop (ctx : Context) (key : String)
  | RPop (ctx : Context) (key : String)
  | LLen (ctx : Context) (key : String)
  | SAdd (ctx : Context) (key : String) (members : List Value)
  | SMembers (ctx : Context) (key : String)
  | SRem (ctx : Context) (key : String) (members : List Value)
  | Ping (ctx : Context)
  | FlushDB (ctx : Context)
  | Keys (ctx : Context) (pattern : String)
  | Close
  deriving DecidableEq, Repr

/-- Run one backend method on the state and append `call` to the log. -/
def logged {σ α : Type} (call : Call) (f : σ → α × σ) (st : σ × List Call) :
    α × (σ × List Call) :=
  ((f st.1).1, ((f st.1).2, st.2 ++ [call]))

/-- The backend `c` with a call log: every method does what `c` does on the
backend state and appends the call to the log. -/
def Cache.traced {σ : Type} (c : Cache σ) : Cache (σ × List Call) where
  Get := fun ctx key => logged (Call.Get ctx key) (c.Get ctx key)
  GetBytes := fun ctx key => logged (Call.GetBytes ctx key) (c.GetBytes ctx key)
  Set := fun ctx key value expiration =>
    logged (Call.Set ctx key value expiration) (c.Set ctx key value expiration)
  SetNX := fun ctx key value expiration =>
    logged (Call.SetNX ctx key value expiration) (c.SetNX ctx key value expiration)
  Delete := fun ctx key => logged (Call.Delete ctx key) (c.Delete ctx key)
  Exists := fun ctx keys => logged (Call.Exists ctx keys) (c.Exists ctx keys)
  MGet := fun ctx keys => logged (Call.MGet ctx keys) (c.MGet ctx keys)
  MSet := fun ctx pairs => logged (Call.MSet ctx pairs) (c.MSet ctx pairs)
  MDelete := fun ctx keys => logged (Call.MDelete ctx keys) (c.MDelete ctx keys)
  Incr := fun ctx key => logged (Call.Incr ctx key) (c.Incr ctx key)
  IncrBy := fun ctx key value => logged (Call.IncrBy ctx key value) (c.IncrBy ctx key value)
  Decr := fun ctx key => logged (Call.Decr ctx key) (c.Decr ctx key)
  DecrBy := fun ctx key value => logged (Call.DecrBy ctx key value) (c.DecrBy ctx key value)
  TTL := fun ctx key => logged (Call.TTL ctx key) (c.TTL ctx key)
  Expire := fun ctx key expiration =>
    logged (Call.Expire ctx key expiration) (c.Expire ctx key expiration)
  Persist := fun ctx key => logged (Call.Persist ctx key) (c.Persist ctx key)
  HGet := fun ctx key field => logged (Call.HGet ctx key field) (c.HGet ctx key field)
  HSet := fun ctx key field value =>
    logged (Call.HSet ctx key field value) (c.HSet ctx key field value)
  HGetAll := fun ctx key => logged (Call.HGetAll ctx key) (c.HGetAll ctx key)
  HDel := fun ctx key fields => logged (Call.HDel ctx key fields) (c.HDel ctx key fields)
  LPush := fun ctx key values => logged (Call.LPush ctx key values) (c.LPush ctx key values)
  RPush := fun ctx key values => logged (Call.RPush ctx key values) (c.RPush ctx key values)
  LPop := fun ctx key => logged (Call.LPop ctx key) (c.LPop ctx key)
  RPop := fun ctx key => logged (Call.RPop ctx key) (c.RPop ctx key)
  LLen := fun ctx key => logged (Call.LLen ctx key) (c.LLen ctx key)
  SAdd := fun ctx key members => logged (Call.SAdd ctx key members) (c.SAdd ctx key members)
  SMembers := fun ctx key => logged (Call.SMembers ctx key) (c.SMembers ctx key)
  SRem := fun ctx key members => logged (Call.SRem ctx key members) (c.SRem ctx key members)
  Ping := fun ctx => logged (Call.Ping ctx) (c.Ping ctx)
  FlushDB := fun ctx => logged (Call.FlushDB ctx) (c.FlushDB ctx)
  Keys := fun ctx pattern => logged (Call.Keys ctx pattern) (c.Keys ctx pattern)
  Close := logged Call.Close c.Close


/-- The namespace `n` over the same backend with a call log. -/
def Namespace.traced {σ : Type} (n : Namespace σ) : Namespace (σ × List Call) :=
  { cache := n.cache.traced, pfx := n.pfx, sep := n.sep }

/-! ## A key-value map backend

The storage engines are not part of the package. The backend below is the
plain key-value map that the flush and set/get properties are stated over. -/

/-- Modelled from the spec: glob matching of a key against a pattern, as used
by the backend's `Keys` (the backend is an external collaborator; no matcher
is in the package). `*` matches any run of characters, `?` matches any one
character, every other character matches itself. -/
def globMatch : List Char → List Char → Bool
  | [], s => s.isEmpty
  | c :: p, s =>
    if c = '*' then s.tails.any (fun t => globMatch p t)
    else
      match s with
      | [] => false
      | d :: s' => (c = '?' || c == d) && globMatch p s'

/-- Modelled from the spec: an in-memory backend whose state is a key-value
map (the storage engine is an external collaborator). `Keys` returns the
stored keys that match the glob pattern, `MDelete` removes the given keys,
`FlushDB` removes every key, `Set` and `Get` write and read one entry;
expirations are not tracked. The structured-data operations are not
supported and fail without touching the map. -/
def mapCache : Cache (GoMap Value) where
  Get := fun _ key m =>
    match GoMap.lookup m key with
    | some (Value.str v) => ((v, none), m)
    | some _ => (("", some GoError.ErrInvalidValue), m)
    | none => (("", some GoError.ErrNotFound), m)
  GetBytes := fun _ key m =>
    match GoMap.lookup m key with
    | some (Value.bytes v) => ((v, none), m)
    | some _ => (([], some GoError.ErrInvalidValue), m)
    | none => (([], some GoError.ErrNotFound), m)
  Set := fun _ key value _ m => (none, GoMap.set m key value)
  SetNX := fun _ key value _ m =>
    match GoMap.lookup m key with
    | some _ => ((false, none), m)
    | none => ((true, none), GoMap.set m key value)
  Delete := fun _ key m => (none, m.filter (fun kv => decide (kv.1 ≠ key)))
  Exists := fun _ keys m =>
    (((keys.filter (fun k => (GoMap.lookup m k).isSome)).length, none), m)
  MGet := fun _ keys m =>
    ((keys.map (fun k => (GoMap.lookup m k).getD Value.nil), none), m)
  MSet := fun _ pairs m => (none, pairs.foldl (fun acc kv => GoMap.set acc kv.1 kv.2) m)
  MDelete := fun _ keys m => (none, m.filter (fun kv => decide (kv.1 ∉ keys)))
  Incr := fun _ _ m => ((0, some (GoError.other "unsupported")), m)
  IncrBy := fun _ _ _ m => ((0, some (GoError.other "unsupported")), m)
  Decr := fun _ _ m => ((0, some (GoError.other "unsupported")), m)
  DecrBy := fun _ _ _ m => ((0, some (GoError.other "unsupported")), m)
  TTL := fun _ _ m => ((0, some (GoError.other "unsupported")), m)
  Expire := fun _ _ _ m => (some (GoError.other "unsupported"), m)
  Persist := fun _ _ m => (some (GoError.other "unsupported"), m)
  HGet := fun _ _ _ m => (("", some (GoError.other "unsupported")), m)
  HSet := fun _ _ _ _ m => (some (GoError.other "unsupported"), m)
  HGetAll := fun _ _ m => (([], some (GoError.other "unsupported")), m)
  HDel := fun _ _ _ m => (some (GoError.other "unsupported"), m)
  LPush := fun _ _ _ m => (some (GoError.other "unsupported"), m)
  RPush := fun _ _ _ m => (some (GoError.other "unsupported"), m)
  LPop := fun _ _ m => (("", some (GoError.other "unsupported")), m)
  RPop := fun _ _ m => (("", some (GoError.other "unsupported")), m)
  LLen := fun _ _ m => ((0, some (GoError.other "unsupported")), m)
  SAdd := fun _ _ _ m => (some (GoError.other "unsupported"), m)
  SMembers := fun _ _ m => (([], some (GoError.other "unsupported")), m)
  SRem := fun _ _ _ m => (some (GoError.other "unsupported"), m)
  Ping := fun _ m => (none, m)
  FlushDB := fun _ _ => (none, [])
  Keys := fun _ pattern m =>
    (((GoMap.keys m).filter (fun k => globMatch pattern.data k.data), none), m)
  Close := fun m => (none, m)

/-! ## Configuration (`config.go`) -/

/-- Go `PoolConfig`. -/
structure PoolConfig where
  MaxIdleConns : Int
  MaxActiveConns : Int
  IdleTimeout : Duration
  MaxConnLifetime : Duration
  deriving DecidableEq, Repr

/-- Go `Config`. -/
structure Config where
  Addr : String
  Password : String
  DB : Int
  DialTimeout : Duration
  ReadTimeout : Duration
  WriteTimeout : Duration
  Pool : PoolConfig
  Extra : GoMap Value
  deriving DecidableEq, Repr

/-- Go `DefaultConfig`. -/
def DefaultConfig : Config :=
  { Addr := "", Password := "", DB := 0,
    DialTimeout := 5 * 1000000000,
    ReadTimeout := 3 * 1000000000,
    WriteTimeout := 3 * 1000000000,
    Pool := { MaxIdleConns := 10, MaxActiveConns := 100,
              IdleTimeout := 5 * (60 * 1000000000),
              MaxConnLifetime := 1 * (3600 * 1000000000) },
    Extra := [] }

/-- Go `(*Config).Validate`. The receiver is a pointer; the second component
is the `Config` it points to after the call. -/
def Config.Validate (c : Config) : Option GoError × Config :=
  if c.Addr = "" then (some (GoError.ErrInvalidConfig "addr is required"), c)
  else (none, c)

/-! ## The driver registry (`registry.go`) -/

/-- How a Go call ends: it returns, or it panics with a value. -/
inductive Outcome (α : Type) where
  | returned (a : α)
  | panicked (v : GoError)
  deriving DecidableEq, Repr

/-- Go `Constructor`, a `func(config Config) (Cache, error)`. `κ` is the type
of non-nil cache instances (`none` is the `nil` interface value); `ω` is the
part of the process state a constructor may read and write (connections it
opens, counters, ...). -/
abbrev Constructor (κ ω : Type) := Config → ω → (Option κ × Option GoError) × ω

/-- The process state the registry functions act on: the package variable
`drivers`, what `fmt.Printf` has written (format and arguments of each call),
and the rest of the world as far as constructors can touch it. Every
function below runs as one atomic step; what `New` does to the mutex
`driversMu` is recorded by `New.steps`. -/
structure Registry (κ ω : Type) where
  drivers : GoMap (Constructor κ ω)
  stdout : List (String × List String)
  world : ω

/-- The state at process start: `drivers = make(map[string]Constructor)`. -/
def Registry.init {κ ω : Type} (w : ω) : Registry κ ω :=
  { drivers := [], stdout := [], world := w }

section registry

variable {κ ω : Type}

/-- Go `Register`. -/
def Register (st : Registry κ ω) (name : String) (c : Constructor κ ω) :
    Outcome Unit × Registry κ ω :=
  match GoMap.lookup st.drivers name with
  | some _ =>
    (Outcome.returned (),
      { st with stdout := st.stdout ++ [("cache driver %q already registered\n", [name])] })
  | none =>
    (Outcome.returned (), { st with drivers := GoMap.set st.drivers name c })

/-- Go `New`. -/
def New (st : Registry κ ω) (driver : String) (cfg : Config) :
    (Option κ × Option GoError) × Registry κ ω :=
  match GoMap.lookup st.drivers driver with
  | none => ((none, some (GoError.errorf "cache driver %q not found" [driver])), st)
  | some c => ((c cfg st.world).1, { st with world := (c cfg st.world).2 })

/-- Go `MustNew`. -/
def MustNew (st : Registry κ ω) (driver : String) (cfg : Config) :
    Outcome (Option κ) × Registry κ ω :=
  match New st driver cfg with
  | ((_, some err), st1) => (Outcome.panicked err, st1)
  | ((cache, none), st1) => (Outcome.returned cache, st1)

/-- What `New` does to the mutex `driversMu` and to the constructor, in the
order in which it happens. -/
inductive LockEvent where
  | RLock
  | RUnlock
  | Invoke (driver : String) (cfg : Config)
  deriving DecidableEq, Repr

/-- Go `New`, statement by statement, with the events of the execution:
`driversMu.RLock()` first; `defer driversMu.RUnlock()` schedules the unlock
for the moment the function returns, that is after the operand of `return`
has been evaluated; the lookup; then either `return nil, fmt.Errorf(...)` or
`return c(cfg)`, which calls the constructor. -/
def New.steps (st : Registry κ ω) (driver : String) (cfg : Config) :
    ((Option κ × Option GoError) × Registry κ ω) × List LockEvent :=
  let events := [LockEvent.RLock]
  let deferred := [LockEvent.RUnlock]
  match GoMap.lookup st.drivers driver with
  | none =>
    (((none, some (GoError.errorf "cache driver %q not found" [driver])), st),
      events ++ deferred)
  | some c =>
    let events := events ++ [LockEvent.Invoke driver cfg]
    (((c cfg st.world).1, { st with world := (c cfg st.world).2 }), events ++ deferred)

/-- The number of read locks held after the events `evs`. -/
def readLocksHeld (evs : List LockEvent) : Int :=
  evs.foldl (fun held e =>
    match e with
    | LockEvent.RLock => held + 1
    | LockEvent.RUnlock => held - 1
    | LockEvent.Invoke _ _ => held) 0

/-- The loop of Go `Drivers` when `range drivers` visits the keys in the order
`visit`: `names` starts empty and each visited name is appended. -/
def Drivers.collect (visit : List String) : List String :=
  visit.foldl (fun names name => names ++ [name]) []

/-- Go `Drivers`. The order in which a Go `range` visits a map is
unspecified; here it is the order of the association list. -/
def Drivers (st : Registry κ ω) : List String :=
  Drivers.collect (GoMap.keys st.drivers)

/-- The constructor `c` with an invocation counter: it does what `c` does on
the world and adds one to the counter. -/
def Constructor.counted (c : Constructor κ ω) : Constructor κ (ω × Nat) :=
  fun cfg w => ((c cfg w.1).1, ((c cfg w.1).2, w.2 + 1))

/-- The process state `st` with every registered constructor counted, and the
counter at `0`. -/
def Registry.counted (st : Registry κ ω) : Registry κ (ω × Nat) :=
  { drivers := st.drivers.map (fun kc => (kc.1, Constructor.counted kc.2)),
    stdout := st.stdout,
    world := (st.world, 0) }

/-- The state after a sequence of `Register` calls, made in order. -/
def registerAll (st : Registry κ ω) (regs : List (String × Constructor κ ω)) :
    Registry κ ω :=
  regs.foldl (fun st r => (Register st r.1 r.2).2) st

end registry

/-! ## Example values used by the closed instances below -/

/-- A context, for the closed instances. -/
def ctx0 : Context := { id := 0 }

/-- The namespace with prefix `app` and separator `:` over the map backend. -/
def appNs : Namespace (GoMap Value) := { cache := mapCache, pfx := "app", sep := ":" }

/-- The namespace with an empty prefix and separator `:` over the map backend. -/
def rootNs : Namespace (GoMap Value) := { cache := mapCache, pfx := "", sep := ":" }

/-- The namespace with prefix `app*` and separator `:` over the map backend. -/
def starNs : Namespace (GoMap Value) := { cache := mapCache, pfx := "app*", sep := ":" }

/-- The constructor that returns the instance `i` and no error, and counts its
invocations in the world. -/
def countingCtor (i : Nat) : Constructor Nat Nat :=
  fun _ w => ((some i, none), w + 1)

/-- The registry holding the driver `mem`, a constructor that returns instance
`1`, in a world where no constructor has run yet. -/
def memRegistry : Registry Nat Nat :=
  { drivers := [("mem", countingCtor 1)], stdout := [], world := 0 }

/-- The namespace `NewNamespace(backend, "orders")` over the map backend. -/
def ordersNs : Namespace (GoMap Value) := NewNamespace mapCache "orders" []

/-- The namespace `NewNamespace(backend, " orders")` over the map backend: the
prefix argument begins with a space. -/
def spaceOrdersNs : Namespace (GoMap Value) := NewNamespace mapCache " orders" []

/-- The namespace with prefix `a` and separator `:` over the map backend. -/
def aNs : Namespace (GoMap Value) := { cache := mapCache, pfx := "a", sep := ":" }

/-- The namespace with prefix `a:b` and separator `:` over the map backend. -/
def abNs : Namespace (GoMap Value) := { cache := mapCache, pfx := "a:b", sep := ":" }

/-! # Theorems -/

/-! ## Strings: prefix test and prefix removal -/

theorem String.length_eq_data_length (s : String) : s.length = s.data.length := rfl

theorem HasPrefix_append (p t : String) : HasPrefix (p ++ t) p = true := by
  simp only [HasPrefix, String.length_eq_data_length, String.data_append, List.length_append,
    List.take_left', ge_iff_le, Nat.le_add_right, decide_True, beq_self_eq_true, Bool.and_self]

theorem TrimPrefix_append (p t : String) : TrimPrefix (p ++ t) p = t := by
  simp only [TrimPrefix, HasPrefix_append, if_true]
  apply String.ext
  simp only [String.length_eq_data_length, String.data_append, List.drop_left']

theorem HasPrefix_iff (s p : String) : HasPrefix s p = true ↔ ∃ t : String, s = p ++ t := by
  constructor
  · intro h
    simp only [HasPrefix, Bool.and_eq_true, decide_eq_true_eq, beq_iff_eq] at h
    refine ⟨⟨s.data.drop p.length⟩, ?_⟩
    apply String.ext
    rw [String.data_append, ← h.2]
    simp only [String.length_eq_data_length, List.take_append_drop]
  · rintro ⟨t, rfl⟩
    exact HasPrefix_append p t

/-! ## Key rewriting -/

namespace Namespace

variable {σ : Type}

/-- C1. With a non-empty prefix, `key k` is `prefix + sep + k`, and
`stripPrefix` undoes `key`: whatever the separator (the empty one included)
and whatever the key (one that itself begins with `prefix + sep`
included). -/
theorem key_stripPrefix_roundtrip (n : Namespace σ) (k : String) (h : n.pfx ≠ "") :
    n.key k = n.pfx ++ n.sep ++ k ∧ n.stripPrefix (n.key k) = k := by
  have hk : n.key k = n.pfx ++ n.sep ++ k := by simp [key, h]
  refine ⟨hk, ?_⟩
  rw [hk]
  simp only [stripPrefix, h, if_false, HasPrefix_append, if_true]
  exact TrimPrefix_append _ _

/-- Instance of C1 at prefix `app`, separator `:` and the key `app:x`, which
itself begins with `app:`; only one `app:` is taken off again. -/
theorem key_stripPrefix_roundtrip_witness :
    appNs.pfx ≠ "" ∧ appNs.key "app:x" = "app:app:x" ∧
      appNs.stripPrefix (appNs.key "app:x") = "app:x" :=
  ⟨by decide, key_stripPrefix_roundtrip appNs "app:x" (by decide)⟩

/-- C2. With an empty prefix, whatever the separator, `key`, `keys` and
`stripPrefix` are the identity. -/
theorem empty_prefix_identity (n : Namespace σ) (h : n.pfx = "") :
    (∀ k : String, n.key k = k) ∧ (∀ ks : List String, n.keys ks = ks) ∧
      (∀ k : String, n.stripPrefix k = k) := by
  refine ⟨?_, ?_, ?_⟩ <;> intro x <;> simp [key, keys, stripPrefix, h]

/-- Instance of C2 at the namespace with empty prefix and separator `:`. -/
theorem empty_prefix_identity_witness :
    rootNs.pfx = "" ∧ (∀ k : String, rootNs.key k = k) ∧
      (∀ ks : List String, rootNs.keys ks = ks) ∧ (∀ k : String, rootNs.stripPrefix k = k) :=
  ⟨rfl, empty_prefix_identity rootNs rfl⟩

/-- C3 as stated fails: with an empty prefix and separator `:`, the string
`:x` starts with `prefix + sep`, yet `stripPrefix` returns it unchanged
instead of removing the leading `:`. -/
theorem stripPrefix_empty_prefix_counterexample :
    ":x" = rootNs.pfx ++ rootNs.sep ++ "x" ∧
      HasPrefix ":x" (rootNs.pfx ++ rootNs.sep) = true ∧
      rootNs.stripPrefix ":x" = ":x" ∧ rootNs.stripPrefix ":x" ≠ "x" := by
  decide

/-- C3, amended. A string that does not start with `prefix + sep` is returned
unchanged by `stripPrefix`; when the prefix is non-empty and the string is
`prefix + sep + t`, the result is `t` (one leading occurrence is removed, no
more); when the prefix is empty every string is returned unchanged. -/
theorem stripPrefix_spec (n : Namespace σ) (s : String) :
    ((¬ ∃ t : String, s = n.pfx ++ n.sep ++ t) → n.stripPrefix s = s) ∧
      (n.pfx ≠ "" → ∀ t : String, s = n.pfx ++ n.sep ++ t → n.stripPrefix s = t) ∧
      (n.pfx = "" → n.stripPrefix s = s) := by
  refine ⟨?_, ?_, ?_⟩
  · intro hno
    have hp : HasPrefix s (n.pfx ++ n.sep) = false := by
      rw [← Bool.not_eq_true, HasPrefix_iff]
      exact hno
    simp [stripPrefix, hp]
  · rintro h t rfl
    simp only [stripPrefix, h, if_false, HasPrefix_append, if_true]
    exact TrimPrefix_append _ _
  · intro h
    simp [stripPrefix, h]

/-- Instance of C3 (amended) at prefix `app`, separator `:`: `other:z` is kept
as it is, `app:app:x` loses one `app:`, and with the empty prefix `:x` is kept
as it is. -/
theorem stripPrefix_spec_witness :
    appNs.stripPrefix "other:z" = "other:z" ∧ appNs.stripPrefix "app:app:x" = "app:x" ∧
      rootNs.stripPrefix ":x" = ":x" :=
  ⟨(stripPrefix_spec appNs "other:z").1 (by
      rw [← HasPrefix_iff]; decide),
    (stripPrefix_spec appNs "app:app:x").2.1 (by decide) "app:x" (by decide),
    (stripPrefix_spec rootNs ":x").2.2 rfl⟩

end Namespace

/-! ## Sub-namespaces -/

namespace Namespace

variable {σ : Type}

/-- C4. `SubNamespace subPrefix` without options keeps the wrapped cache and
the separator, and its prefix is `prefix + sep + subPrefix` when the parent
prefix is non-empty and `subPrefix` when it is empty. With the single option
`WithSeparator sep2` the result differs from that only in its separator: the
composed prefix is still built with the parent separator. -/
theorem SubNamespace_spec (n : Namespace σ) (subPrefix sep2 : String) :
    (n.SubNamespace subPrefix []).cache = n.cache ∧
      (n.SubNamespace subPrefix []).sep = n.sep ∧
      (n.pfx ≠ "" → (n.SubNamespace subPrefix []).pfx = n.pfx ++ n.sep ++ subPrefix) ∧
      (n.pfx = "" → (n.SubNamespace subPrefix []).pfx = subPrefix) ∧
      (n.SubNamespace subPrefix [WithSeparator sep2]).cache = n.cache ∧
      (n.SubNamespace subPrefix [WithSeparator sep2]).sep = sep2 ∧
      (n.SubNamespace subPrefix [WithSeparator sep2]).pfx = (n.SubNamespace subPrefix []).pfx := by
  refine ⟨rfl, rfl, ?_, ?_, rfl, rfl, rfl⟩
  · intro h
    simp [SubNamespace, h, String.append_assoc]
  · intro h
    simp [SubNamespace, h]

/-- Instance of C4: prefix `a`, separator `:` and sub-prefix `b` give `a:b`
(also under `WithSeparator "/"`, which only sets the separator to `/`); the
empty prefix and sub-prefix `b` give `b`. -/
theorem SubNamespace_spec_witness :
    (({ cache := mapCache, pfx := "a", sep := ":" } : Namespace (GoMap Value)).SubNamespace
        "b" []).pfx = "a:b" ∧
      (rootNs.SubNamespace "b" []).pfx = "b" ∧
      (({ cache := mapCache, pfx := "a", sep := ":" } : Namespace (GoMap Value)).SubNamespace
        "b" [WithSeparator "/"]).pfx = "a:b" ∧
      (({ cache := mapCache, pfx := "a", sep := ":" } : Namespace (GoMap Value)).SubNamespace
        "b" [WithSeparator "/"]).sep = "/" :=
  ⟨(SubNamespace_spec { cache := mapCache, pfx := "a", sep := ":" } "b" "/").2.2.1 (by decide),
    (SubNamespace_spec rootNs "b" "/").2.2.2.1 rfl,
    ((SubNamespace_spec { cache := mapCache, pfx := "a", sep := ":" } "b" "/").2.2.2.2.2.2).trans
      ((SubNamespace_spec { cache := mapCache, pfx := "a", sep := ":" } "b" "/").2.2.1
        (by decide)),
    (SubNamespace_spec { cache := mapCache, pfx := "a", sep := ":" } "b" "/").2.2.2.2.2.1⟩

end Namespace

/-! ## Flushing a namespace -/

theorem HasPrefix_eq_isPrefixOf (s p : String) : HasPrefix s p = p.data.isPrefixOf s.data := by
  rw [Bool.eq_iff_iff, HasPrefix_iff, List.isPrefixOf_iff_prefix]
  constructor
  · rintro ⟨t, rfl⟩
    exact ⟨t.data, by simp⟩
  · rintro ⟨t, ht⟩
    exact ⟨⟨t⟩, String.ext (by simp [ht])⟩

theorem globMatch_star (s : List Char) : globMatch ['*'] s = true := by
  simp only [globMatch, if_true, List.any_eq_true]
  exact ⟨[], by simp, rfl⟩

/-- A pattern made of characters other than `*` and `?`, followed by one `*`,
matches the strings that begin with those characters. -/
theorem globMatch_literal_star (L s : List Char) (hL : ∀ c ∈ L, c ≠ '*' ∧ c ≠ '?') :
    globMatch (L ++ ['*']) s = L.isPrefixOf s := by
  induction L generalizing s with
  | nil => simpa using globMatch_star s
  | cons c L ih =>
    have hc := hL c (List.mem_cons_self c L)
    have ih2 := fun s => ih s (fun d hd => hL d (List.mem_cons_of_mem c hd))
    cases s with
    | nil => simp [globMatch, hc.1]
    | cons d s => simp [globMatch, hc.1, hc.2, ih2, List.isPrefixOf]

/-- Over the map backend, when neither the prefix nor the separator contains a
glob wildcard, `FlushNamespace` succeeds and removes the entries whose key
starts with `prefix + sep`, and only those. -/
theorem FlushNamespace_mapCache_literal (n : Namespace (GoMap Value)) (ctx : Context)
    (m : GoMap Value) (hc : n.cache = mapCache) (h : n.pfx ≠ "")
    (hlit : ∀ c ∈ (n.pfx ++ n.sep).data, c ≠ '*' ∧ c ≠ '?') :
    n.FlushNamespace ctx m =
      (none, m.filter (fun kv => !HasPrefix kv.1 (n.pfx ++ n.sep))) := by
  have hpat : ∀ k : String,
      globMatch (n.pfx ++ n.sep ++ "*").data k.data = HasPrefix k (n.pfx ++ n.sep) := by
    intro k
    rw [HasPrefix_eq_isPrefixOf, ← globMatch_literal_star _ _ hlit]
    simp [String.data_append]
  simp only [Namespace.FlushNamespace, h, if_false, hc, mapCache, hpat, GoMap.keys]
  split
  · next hnil =>
    have hnone : ∀ kv ∈ m, HasPrefix kv.1 (n.pfx ++ n.sep) = false := by
      intro kv hkv
      have := List.length_eq_zero.mp hnil
      rw [List.filter_eq_nil_iff] at this
      simpa using this kv.1 (List.mem_map_of_mem _ hkv)
    congr 1
    symm
    rw [List.filter_eq_self]
    intro kv hkv
    simp [hnone kv hkv]
  · congr 1
    apply List.filter_congr
    intro kv hkv
    have hmem : kv.1 ∈ List.map (fun kv => kv.1) m := List.mem_map_of_mem _ hkv
    by_cases hp : HasPrefix kv.1 (n.pfx ++ n.sep) = true
    · simp [List.mem_filter, hp, hmem]
    · simp [List.mem_filter, hp]

/-- C5 fails on the code where the prefix contains a glob wildcard. With
prefix `app*`, separator `:` and the stored keys `app*:x`, `apple:y`,
`other:z`, the pattern handed to the backend is `app*:*`; it matches
`apple:y`, which does not start with `app*:`, and `FlushNamespace` deletes
that key too. -/
theorem FlushNamespace_wildcard_prefix_deletes_foreign_key :
    starNs.pfx ≠ "" ∧
      HasPrefix "apple:y" (starNs.pfx ++ starNs.sep) = false ∧
      GoMap.lookup [("app*:x", Value.int 1), ("apple:y", Value.int 2), ("other:z", Value.int 3)]
        "apple:y" = some (Value.int 2) ∧
      starNs.FlushNamespace ctx0
          [("app*:x", Value.int 1), ("apple:y", Value.int 2), ("other:z", Value.int 3)] =
        (none, [("other:z", Value.int 3)]) ∧
      GoMap.lookup (starNs.FlushNamespace ctx0
          [("app*:x", Value.int 1), ("apple:y", Value.int 2), ("other:z", Value.int 3)]).2
        "apple:y" = none := by
  decide

/-- The example of the spec: with prefix `app` and the stored keys `app:x`,
`app:y`, `other:z`, `FlushNamespace` deletes `app:x` and `app:y` and leaves
`other:z` with its value. -/
theorem FlushNamespace_app_example :
    appNs.FlushNamespace ctx0
        [("app:x", Value.int 1), ("app:y", Value.int 2), ("other:z", Value.int 3)] =
      (none, [("other:z", Value.int 3)]) := by
  decide

/-! ## The backend calls of `FlushNamespace` -/

/-- The calls `FlushNamespace` makes with a non-empty prefix: one `Keys` call
with the pattern `prefix + sep + "*"`, followed by one `MDelete` call with the
keys returned, unless `Keys` failed or returned no key. The results and the
backend state are those of the run without a log. -/
theorem FlushNamespace_traced_nonempty {σ : Type} (n : Namespace σ) (ctx : Context) (s : σ)
    (log : List Call) (h : n.pfx ≠ "") :
    n.traced.FlushNamespace ctx (s, log) =
      ((n.FlushNamespace ctx s).1, ((n.FlushNamespace ctx s).2,
        log ++ Call.Keys ctx (n.pfx ++ n.sep ++ "*") ::
          (match n.cache.Keys ctx (n.pfx ++ n.sep ++ "*") s with
            | ((_, some _), _) => []
            | ((keys, none), _) => if keys.length = 0 then [] else [Call.MDelete ctx keys]))) := by
  simp only [Namespace.FlushNamespace, Namespace.traced, h, if_false, Cache.traced, logged]
  rcases hk : n.cache.Keys ctx (n.pfx ++ n.sep ++ "*") s with ⟨⟨keys, err⟩, s1⟩
  cases err with
  | some e => simp
  | none =>
    by_cases hlen : keys.length = 0
    · simp [hlen]
    · simp [hlen]

/-- C6. With an empty prefix `FlushNamespace` is `FlushDB` on the wrapped
cache: same result and same backend state, and the only backend call is that
one `FlushDB` (no `Keys`, no `MDelete`). With a non-empty prefix no `FlushDB`
call is among the calls made. -/
theorem FlushNamespace_FlushDB {σ : Type} (n : Namespace σ) (ctx : Context) (s : σ) :
    (n.pfx = "" →
        n.FlushNamespace ctx s = n.cache.FlushDB ctx s ∧
        n.FlushNamespace ctx s = n.FlushDB ctx s ∧
        n.traced.FlushNamespace ctx (s, []) =
          ((n.cache.FlushDB ctx s).1, ((n.cache.FlushDB ctx s).2, [Call.FlushDB ctx]))) ∧
      (n.pfx ≠ "" → ∀ ctx2 : Context,
        Call.FlushDB ctx2 ∉ (n.traced.FlushNamespace ctx (s, [])).2.2) := by
  constructor
  · intro h
    refine ⟨?_, ?_, ?_⟩
    · simp [Namespace.FlushNamespace, h]
    · simp [Namespace.FlushNamespace, Namespace.FlushDB, h]
    · simp [Namespace.FlushNamespace, Namespace.traced, Cache.traced, logged, h]
  · intro h ctx2
    rw [FlushNamespace_traced_nonempty n ctx s [] h]
    rcases n.cache.Keys ctx (n.pfx ++ n.sep ++ "*") s with ⟨⟨keys, err⟩, s1⟩
    cases err with
    | some e => simp
    | none =>
      by_cases hlen : keys.length = 0
      · simp [hlen]
      · simp [hlen]

/-- Instance of C6 over the map backend holding `app:x` and `other:z`: with
the empty prefix the one call is `FlushDB` and the map is emptied; with prefix
`app` no `FlushDB` call is made. -/
theorem FlushNamespace_FlushDB_witness :
    rootNs.traced.FlushNamespace ctx0 ([("app:x", Value.int 1), ("other:z", Value.int 3)], []) =
        (none, ([], [Call.FlushDB ctx0])) ∧
      Call.FlushDB ctx0 ∉
        (appNs.traced.FlushNamespace ctx0
          ([("app:x", Value.int 1), ("other:z", Value.int 3)], [])).2.2 :=
  ⟨((FlushNamespace_FlushDB rootNs ctx0
        [("app:x", Value.int 1), ("other:z", Value.int 3)]).1 rfl).2.2,
    (FlushNamespace_FlushDB appNs ctx0
        [("app:x", Value.int 1), ("other:z", Value.int 3)]).2 (by decide) ctx0⟩

/-! ## The driver registry -/

theorem GoMap.lookup_set {α : Type} (m : GoMap α) (k k2 : String) (v : α) :
    GoMap.lookup (GoMap.set m k v) k2 = if k = k2 then some v else GoMap.lookup m k2 := by
  induction m with
  | nil => simp [GoMap.set, GoMap.lookup]
  | cons kv rest ih =>
    obtain ⟨k1, v1⟩ := kv
    by_cases h1 : k1 = k
    · subst h1
      by_cases h2 : k1 = k2 <;> simp [GoMap.set, GoMap.lookup, h2]
    · by_cases h2 : k1 = k2
      · subst h2
        have h3 : ¬ k = k1 := fun e => h1 e.symm
        simp [GoMap.set, GoMap.lookup, h1, h3]
      · simp [GoMap.set, GoMap.lookup, h1, h2, ih]

theorem GoMap.lookup_eq_none_iff {α : Type} (m : GoMap α) (k : String) :
    GoMap.lookup m k = none ↔ k ∉ GoMap.keys m := by
  induction m with
  | nil => simp [GoMap.lookup, GoMap.keys]
  | cons kv rest ih =>
    obtain ⟨k1, v1⟩ := kv
    by_cases h1 : k1 = k
    · simp [GoMap.lookup, GoMap.keys, h1]
    · have h2 : ¬ k = k1 := fun e => h1 e.symm
      simpa [GoMap.lookup, GoMap.keys, h1, h2] using ih

theorem GoMap.keys_set_of_lookup_none {α : Type} (m : GoMap α) (k : String) (v : α)
    (h : GoMap.lookup m k = none) : GoMap.keys (GoMap.set m k v) = GoMap.keys m ++ [k] := by
  induction m with
  | nil => simp [GoMap.set, GoMap.keys]
  | cons kv rest ih =>
    obtain ⟨k1, v1⟩ := kv
    by_cases h1 : k1 = k
    · simp [GoMap.lookup, h1] at h
    · simp only [GoMap.lookup, h1, if_false] at h
      have := ih h
      simp only [GoMap.keys] at this
      simp [GoMap.set, GoMap.keys, h1, this]

theorem Drivers.collect_eq (visit : List String) : Drivers.collect visit = visit := by
  have key : ∀ (l acc : List String),
      l.foldl (fun names name => names ++ [name]) acc = acc ++ l := by
    intro l
    induction l with
    | nil => simp
    | cons a l ih => intro acc; simp [ih]
  simpa [Drivers.collect] using key visit []

section registry

variable {κ ω : Type}

/-- C7. Registering a name that is already registered, with any constructor,
returns normally and leaves the name-to-constructor mapping as it was: `New`
for that name still returns what the first constructor returns, and the list
of registered names is the same. The only change is one notice on the
standard output. -/
theorem Register_duplicate (st : Registry κ ω) (name : String) (c1 c2 : Constructor κ ω)
    (h : GoMap.lookup st.drivers name = some c1) :
    (Register st name c2).1 = Outcome.returned () ∧
      (Register st name c2).2.drivers = st.drivers ∧
      (Register st name c2).2.world = st.world ∧
      (Register st name c2).2.stdout =
        st.stdout ++ [("cache driver %q already registered\n", [name])] ∧
      (∀ cfg : Config, (New (Register st name c2).2 name cfg).1 = (c1 cfg st.world).1) ∧
      (∀ (driver : String) (cfg : Config),
        (New (Register st name c2).2 driver cfg).1 = (New st driver cfg).1) ∧
      Drivers (Register st name c2).2 = Drivers st := by
  refine ⟨?_, ?_, ?_, ?_, ?_, ?_, ?_⟩ <;> try simp [Register, New, Drivers, h]
  intro driver cfg
  cases GoMap.lookup st.drivers driver <;> simp

/-- Instance of C7: `mem` is registered with a constructor returning instance
`1`; registering `mem` again with one returning `2` returns normally, and
`New "mem"` still returns instance `1`. -/
theorem Register_duplicate_witness :
    GoMap.lookup memRegistry.drivers "mem" = some (countingCtor 1) ∧
      (Register memRegistry "mem" (countingCtor 2)).1 = Outcome.returned () ∧
      (New (Register memRegistry "mem" (countingCtor 2)).2 "mem" DefaultConfig).1 =
        (some 1, none) ∧
      Drivers (Register memRegistry "mem" (countingCtor 2)).2 = ["mem"] :=
  ⟨rfl, (Register_duplicate memRegistry "mem" (countingCtor 1) (countingCtor 2) rfl).1,
    (Register_duplicate memRegistry "mem" (countingCtor 1) (countingCtor 2) rfl).2.2.2.2.1
      DefaultConfig,
    (Register_duplicate memRegistry "mem" (countingCtor 1) (countingCtor 2) rfl).2.2.2.2.2.2⟩

theorem GoMap.lookup_map {α β : Type} (f : α → β) (m : GoMap α) (k : String) :
    GoMap.lookup (m.map (fun kv => (kv.1, f kv.2))) k = (GoMap.lookup m k).map f := by
  induction m with
  | nil => simp [GoMap.lookup]
  | cons kv rest ih =>
    obtain ⟨k1, v1⟩ := kv
    by_cases h1 : k1 = k
    · simp [GoMap.lookup, h1]
    · simpa [GoMap.lookup, h1] using ih

/-- The counter of `Registry.counted` does see a constructor run: `New` for a
registered name leaves it at `1`. -/
theorem New_registered_counted (st : Registry κ ω) (driver : String) (cfg : Config)
    (c : Constructor κ ω) (h : GoMap.lookup st.drivers driver = some c) :
    (New (Registry.counted st) driver cfg).2.world.2 = 1 := by
  have hl : GoMap.lookup (Registry.counted st).drivers driver = some (Constructor.counted c) := by
    simp only [Registry.counted]
    rw [GoMap.lookup_map Constructor.counted, h]
    rfl
  simp only [New, hl]
  simp [Constructor.counted, Registry.counted]

/-- C8. `New` for a name that is not registered returns no instance together
with the driver-not-found error, a non-nil error, and the whole process state
is as before: the registry is unchanged, and so is the world, which any
constructor that ran could have changed. No constructor is invoked: when
every registered constructor counts its invocations, the counter is still `0`
after the call. -/
theorem New_unregistered (st : Registry κ ω) (driver : String) (cfg : Config)
    (h : GoMap.lookup st.drivers driver = none) :
    (New st driver cfg).1.1 = none ∧
      (New st driver cfg).1.2 = some (GoError.errorf "cache driver %q not found" [driver]) ∧
      (New st driver cfg).1.2 ≠ none ∧
      (New st driver cfg).2 = st ∧
      (New (Registry.counted st) driver cfg).2.world.2 = 0 := by
  have hl : GoMap.lookup (Registry.counted st).drivers driver = none := by
    simp only [Registry.counted]
    rw [GoMap.lookup_map Constructor.counted, h]
    rfl
  refine ⟨?_, ?_, ?_, ?_, ?_⟩
  · simp [New, h]
  · simp [New, h]
  · simp [New, h]
  · simp [New, h]
  · simp only [New, hl]
    rfl

/-- Instance of C8: `redis` is not registered in the registry that holds only
`mem`; `New "redis"` returns the error and the invocation counter stays at
`0`. -/
theorem New_unregistered_witness :
    GoMap.lookup memRegistry.drivers "redis" = none ∧
      (New memRegistry "redis" DefaultConfig).1 =
        (none, some (GoError.errorf "cache driver %q not found" ["redis"])) ∧
      (New memRegistry "redis" DefaultConfig).2.world = 0 ∧
      (New (Registry.counted memRegistry) "redis" DefaultConfig).2.world.2 = 0 :=
  ⟨rfl,
    Prod.ext (New_unregistered memRegistry "redis" DefaultConfig rfl).1
      (New_unregistered memRegistry "redis" DefaultConfig rfl).2.1,
    congrArg Registry.world (New_unregistered memRegistry "redis" DefaultConfig rfl).2.2.2.1,
    (New_unregistered memRegistry "redis" DefaultConfig rfl).2.2.2.2⟩

/-- C9. After registering a name that was not registered, `New` for that name
returns exactly what the constructor returns (instance, error, and effect on
the world), for every configuration; every entry that was in the registry is
still there with its constructor, and `New` for every other name returns what
it returned before. -/
theorem Register_then_New (st : Registry κ ω) (name : String) (c : Constructor κ ω)
    (h : GoMap.lookup st.drivers name = none) :
    (Register st name c).1 = Outcome.returned () ∧
      (∀ cfg : Config,
        (New (Register st name c).2 name cfg).1 = (c cfg st.world).1 ∧
        (New (Register st name c).2 name cfg).2.world = (c cfg st.world).2) ∧
      (∀ (other : String) (c2 : Constructor κ ω), GoMap.lookup st.drivers other = some c2 →
        GoMap.lookup (Register st name c).2.drivers other = some c2) ∧
      (∀ (other : String) (cfg : Config), other ≠ name →
        (New (Register st name c).2 other cfg).1 = (New st other cfg).1 ∧
        (New (Register st name c).2 other cfg).2.world = (New st other cfg).2.world) := by
  refine ⟨by simp [Register, h], ?_, ?_, ?_⟩
  · intro cfg
    simp [Register, New, h, GoMap.lookup_set]
  · intro other c2 h2
    have hne : ¬ name = other := by
      intro e
      subst e
      rw [h] at h2
      cases h2
    simp [Register, h, GoMap.lookup_set, hne, h2]
  · intro other cfg hne
    have hne2 : ¬ name = other := fun e => hne e.symm
    simp only [Register, h, New, GoMap.lookup_set, hne2, if_false]
    cases GoMap.lookup st.drivers other <;> simp

/-- Instance of C9: `redis` is not registered in the registry that holds only
`mem`; after registering it with a constructor that returns instance `2`,
`New "redis"` returns instance `2` and `New "mem"` still returns instance
`1`. -/
theorem Register_then_New_witness :
    GoMap.lookup memRegistry.drivers "redis" = none ∧
      (New (Register memRegistry "redis" (countingCtor 2)).2 "redis" DefaultConfig).1 =
        (some 2, none) ∧
      (New (Register memRegistry "redis" (countingCtor 2)).2 "mem" DefaultConfig).1 =
        (some 1, none) :=
  ⟨rfl,
    ((Register_then_New memRegistry "redis" (countingCtor 2) rfl).2.1 DefaultConfig).1,
    ((Register_then_New memRegistry "redis" (countingCtor 2) rfl).2.2.2 "mem"
      DefaultConfig (by decide)).1⟩

theorem Register_keys (st : Registry κ ω) (name : String) (c : Constructor κ ω) :
    GoMap.keys (Register st name c).2.drivers =
      if name ∈ GoMap.keys st.drivers then GoMap.keys st.drivers
      else GoMap.keys st.drivers ++ [name] := by
  cases h : GoMap.lookup st.drivers name with
  | none =>
    have hn : name ∉ GoMap.keys st.drivers := (GoMap.lookup_eq_none_iff _ _).mp h
    simp [Register, h, hn, GoMap.keys_set_of_lookup_none]
  | some c1 =>
    have hn : name ∈ GoMap.keys st.drivers := by
      by_contra hc
      rw [(GoMap.lookup_eq_none_iff _ _).mpr hc] at h
      cases h
    simp [Register, h, hn]

/-- The names in the registry after a sequence of `Register` calls: no name
occurs twice, and the names are those present before together with those
registered. -/
theorem registerAll_keys (regs : List (String × Constructor κ ω)) (st : Registry κ ω)
    (hnd : (GoMap.keys st.drivers).Nodup) :
    (GoMap.keys (registerAll st regs).drivers).Nodup ∧
      ∀ x : String, x ∈ GoMap.keys (registerAll st regs).drivers ↔
        x ∈ GoMap.keys st.drivers ∨ x ∈ regs.map Prod.fst := by
  induction regs generalizing st with
  | nil => simp [registerAll, hnd]
  | cons r regs ih =>
    have hk := Register_keys st r.1 r.2
    have hnd2 : (GoMap.keys (Register st r.1 r.2).2.drivers).Nodup := by
      rw [hk]
      by_cases hm : r.1 ∈ GoMap.keys st.drivers
      · simpa [hm] using hnd
      · simp only [hm, if_false]
        exact List.Nodup.append hnd (List.nodup_singleton _) (by simpa using hm)
    have step := ih (Register st r.1 r.2).2 hnd2
    have hfold : registerAll st (r :: regs) = registerAll (Register st r.1 r.2).2 regs := rfl
    rw [hfold]
    refine ⟨step.1, ?_⟩
    intro x
    rw [step.2 x, hk]
    by_cases hm : r.1 ∈ GoMap.keys st.drivers
    · simp only [hm, if_true, List.map_cons, List.mem_cons]
      constructor
      · rintro (h1 | h1)
        · exact Or.inl h1
        · exact Or.inr (Or.inr h1)
      · rintro (h1 | h1 | h1)
        · exact Or.inl h1
        · exact Or.inl (h1 ▸ hm)
        · exact Or.inr h1
    · simp only [hm, if_false, List.mem_append, List.mem_singleton, List.map_cons]
      rw [List.mem_cons]
      constructor
      · rintro ((h1 | h1) | h1)
        · exact Or.inl h1
        · exact Or.inr (Or.inl h1)
        · exact Or.inr (Or.inr h1)
      · rintro (h1 | h1 | h1)
        · exact Or.inl (Or.inl h1)
        · exact Or.inl (Or.inr h1)
        · exact Or.inr h1

/-- C10. In every registry state reached from the empty registry by a sequence
of `Register` calls, the list `Drivers` returns contains each registered name
exactly once and no other string, and its length is the number of distinct
names registered. This holds for every order in which the loop may visit the
map (`visit`, any rearrangement of the map's keys), the order of the model
included. -/
theorem Drivers_registered (w : ω) (regs : List (String × Constructor κ ω)) :
    ((∀ x : String, (Drivers (registerAll (Registry.init w) regs)).count x =
          if x ∈ regs.map Prod.fst then 1 else 0) ∧
        (Drivers (registerAll (Registry.init w) regs)).length =
          (regs.map Prod.fst).toFinset.card) ∧
      ∀ visit : List String,
        visit.Perm (GoMap.keys (registerAll (Registry.init w) regs).drivers) →
        (∀ x : String, (Drivers.collect visit).count x =
          if x ∈ regs.map Prod.fst then 1 else 0) ∧
        (Drivers.collect visit).length = (regs.map Prod.fst).toFinset.card := by
  have hinit : (GoMap.keys (Registry.init w : Registry κ ω).drivers).Nodup :=
    List.nodup_nil
  obtain ⟨hnd, hmem⟩ := registerAll_keys regs (Registry.init w) hinit
  have hmem2 : ∀ x : String, x ∈ GoMap.keys (registerAll (Registry.init w) regs).drivers ↔
      x ∈ regs.map Prod.fst := by
    intro x
    rw [hmem x]
    have hempty : GoMap.keys (Registry.init w : Registry κ ω).drivers = [] := rfl
    rw [hempty]
    simp only [List.not_mem_nil, false_or]
  have main : ∀ visit : List String,
      visit.Perm (GoMap.keys (registerAll (Registry.init w) regs).drivers) →
      (∀ x : String, (Drivers.collect visit).count x =
        if x ∈ regs.map Prod.fst then 1 else 0) ∧
      (Drivers.collect visit).length = (regs.map Prod.fst).toFinset.card := by
    intro visit hp
    rw [Drivers.collect_eq]
    have hndv : visit.Nodup := hp.nodup_iff.mpr hnd
    have hmemv : ∀ x : String, x ∈ visit ↔ x ∈ regs.map Prod.fst := by
      intro x
      rw [hp.mem_iff, hmem2 x]
    constructor
    · intro x
      by_cases hx : x ∈ regs.map Prod.fst
      · rw [if_pos hx]
        exact List.count_eq_one_of_mem hndv ((hmemv x).mpr hx)
      · rw [if_neg hx]
        exact List.count_eq_zero_of_not_mem (fun hc => hx ((hmemv x).mp hc))
    · rw [← List.toFinset_card_of_nodup hndv]
      congr 1
      ext x
      simp only [List.mem_toFinset]
      exact hmemv x
  exact ⟨main _ (List.Perm.refl _), main⟩

/-- Instance of C10: after registering `mem`, `redis` and `mem` again, and
with the loop visiting `redis` before `mem`, the list is `redis`, `mem`: each
of the two names once. -/
theorem Drivers_registered_witness :
    List.Perm ["redis", "mem"]
        (GoMap.keys (registerAll (Registry.init 0)
          [("mem", countingCtor 1), ("redis", countingCtor 2), ("mem", countingCtor 3)]).drivers) ∧
      (∀ x : String, (Drivers.collect ["redis", "mem"]).count x =
        if x ∈ ["mem", "redis", "mem"] then 1 else 0) ∧
      (Drivers.collect ["redis", "mem"]).length = 2 :=
  ⟨List.Perm.swap "mem" "redis" [],
    (Drivers_registered 0
      [("mem", countingCtor 1), ("redis", countingCtor 2), ("mem", countingCtor 3)]).2
      ["redis", "mem"] (List.Perm.swap "mem" "redis" [])⟩

end registry

/-! ## Configuration -/

/-- C11. `Validate` returns an `ErrInvalidConfig` error exactly when `Addr` is
the empty string (and then no other kind of error); for a non-empty `Addr` it
returns `nil`; the result depends on no other field; and the `Config` is the
same after the call. -/
theorem Config.Validate_spec (c : Config) :
    ((∃ msg : String, c.Validate.1 = some (GoError.ErrInvalidConfig msg)) ↔ c.Addr = "") ∧
      (c.Validate.1 ≠ none ↔ c.Addr = "") ∧
      (c.Addr ≠ "" → c.Validate.1 = none) ∧
      (∀ c2 : Config, c2.Addr = c.Addr → c2.Validate.1 = c.Validate.1) ∧
      c.Validate.2 = c := by
  by_cases h : c.Addr = ""
  · refine ⟨?_, ?_, ?_, ?_, ?_⟩
    · simp [Config.Validate, h]
    · simp [Config.Validate, h]
    · intro hne
      exact absurd h hne
    · intro c2 h2
      simp [Config.Validate, h, h2]
    · simp [Config.Validate, h]
  · refine ⟨?_, ?_, ?_, ?_, ?_⟩
    · simp [Config.Validate, h]
    · simp [Config.Validate, h]
    · intro _
      simp [Config.Validate, h]
    · intro c2 h2
      simp [Config.Validate, h, h2]
    · simp [Config.Validate, h]

/-- Instance of C11: the default configuration has an empty address and is
rejected; with the address `localhost:6379` and every other field as in the
default configuration it is accepted. -/
theorem Config.Validate_spec_witness :
    DefaultConfig.Validate.1 ≠ none ∧
      ({ DefaultConfig with Addr := "localhost:6379" } : Config).Validate.1 = none :=
  ⟨(Config.Validate_spec DefaultConfig).2.1.mpr rfl,
    (Config.Validate_spec { DefaultConfig with Addr := "localhost:6379" }).2.2.1 (by decide)⟩

/-! ## Writing through a namespace, reading from the backend -/

/-- C12 as stated fails: the prefix argument ` orders` (with a leading space)
is non-empty, `NewNamespace` trims it to `orders`, `Set` of key `42` succeeds
and stores under `orders:42`, and the direct `Get` of ` orders:42` finds
nothing. -/
theorem NewNamespace_Set_untrimmed_counterexample :
    " orders" ≠ "" ∧
      (spaceOrdersNs.Set ctx0 "42" (Value.str "paid") 0 []).1 = none ∧
      (spaceOrdersNs.Set ctx0 "42" (Value.str "paid") 0 []).2 =
        [("orders:42", Value.str "paid")] ∧
      (mapCache.Get ctx0 (" orders" ++ ":" ++ "42")
          (spaceOrdersNs.Set ctx0 "42" (Value.str "paid") 0 []).2).1 =
        ("", some GoError.ErrNotFound) := by
  decide

/-- C12, amended. Over the map backend, for a prefix argument `p` whose
trimmed form `TrimSpace p` is non-empty: `NewNamespace(backend, p).Set(ctx, k,
v, 0)` succeeds, and afterwards the direct `Get` of `TrimSpace p + ":" + k`
returns `v`. When `p` has no leading or trailing white space this is the
direct `Get` of `p + ":" + k`. -/
theorem NewNamespace_Set_then_Get (p k v : String) (ctx ctx2 : Context) (m : GoMap Value)
    (h : TrimSpace p ≠ "") :
    ((NewNamespace mapCache p []).Set ctx k (Value.str v) 0 m).1 = none ∧
      (mapCache.Get ctx2 (TrimSpace p ++ ":" ++ k)
          ((NewNamespace mapCache p []).Set ctx k (Value.str v) 0 m).2).1 = (v, none) ∧
      (TrimSpace p = p →
        (mapCache.Get ctx2 (p ++ ":" ++ k)
          ((NewNamespace mapCache p []).Set ctx k (Value.str v) 0 m).2).1 = (v, none)) := by
  have hkey : (NewNamespace mapCache p []).key k = TrimSpace p ++ ":" ++ k := by
    simp [NewNamespace, Namespace.key, h]
  have hset : ((NewNamespace mapCache p []).Set ctx k (Value.str v) 0 m).2 =
      GoMap.set m (TrimSpace p ++ ":" ++ k) (Value.str v) := by
    simp only [Namespace.Set, hkey]
    rfl
  have hget : (mapCache.Get ctx2 (TrimSpace p ++ ":" ++ k)
      ((NewNamespace mapCache p []).Set ctx k (Value.str v) 0 m).2).1 = (v, none) := by
    rw [hset]
    simp [mapCache, GoMap.lookup_set]
  refine ⟨rfl, hget, ?_⟩
  intro htrim
  rw [htrim] at hget
  exact hget

/-- Instance of C12 (amended): with `p = "orders"`, `k = "42"` and
`v = "paid"` on the empty map, the direct `Get` of `orders:42` returns
`paid`. -/
theorem NewNamespace_Set_then_Get_witness :
    TrimSpace "orders" ≠ "" ∧
      (mapCache.Get ctx0 "orders:42"
          (ordersNs.Set ctx0 "42" (Value.str "paid") 0 []).2).1 = ("paid", none) :=
  ⟨by decide,
    (NewNamespace_Set_then_Get "orders" "42" "paid" ctx0 ctx0 [] (by decide)).2.2 (by decide)⟩

/-! ## Loops that fill a slice slot by slot -/

/-- The loop `for i, x := range l { result[i] = f(x) }` on a slice holding
`pre` followed by `len(l)` default values, started at slot `len(pre)`, leaves
`pre` followed by the values `f(x)`, in order. -/
theorem foldl_set_enumFrom {α β : Type} (f : α → β) (d : β) (l : List α) (pre : List β) :
    (l.enumFrom pre.length).foldl (fun result ik => result.set ik.1 (f ik.2))
        (pre ++ List.replicate l.length d) = pre ++ l.map f := by
  induction l generalizing pre with
  | nil => simp
  | cons a l ih =>
    have hstep : (pre ++ List.replicate (l.length + 1) d).set pre.length (f a) =
        (pre ++ [f a]) ++ List.replicate l.length d := by
      simp [List.replicate_succ]
    have hlen : pre.length + 1 = (pre ++ [f a]).length := by simp
    simp only [List.enumFrom_cons, List.foldl_cons, List.length_cons, hstep]
    rw [hlen, ih (pre ++ [f a])]
    simp

theorem foldl_set_enum {α β : Type} (f : α → β) (d : β) (l : List α) :
    l.enum.foldl (fun result ik => result.set ik.1 (f ik.2)) (List.replicate l.length d) =
      l.map f := by
  simpa [List.enum] using foldl_set_enumFrom f d l []

namespace Namespace

variable {σ : Type}

/-- The loop in `keys` yields `key` applied to each element, in order. -/
theorem keys_eq_map (n : Namespace σ) (ks : List String) : n.keys ks = ks.map n.key := by
  by_cases h : n.pfx = ""
  · have hid : n.key = id := funext fun k => by simp [key, h]
    simp [keys, h, hid]
  · simp only [keys, h, if_false]
    exact foldl_set_enum n.key "" ks

/-- C13. `Keys` makes one backend call, `Keys` with the pattern `key pattern`.
When the backend succeeds with the list `keys`, the result is the list
`stripPrefix k` for `k` in `keys`, in the same order and of the same length;
if moreover the prefix is non-empty and every key of the backend starts with
`prefix + sep`, applying `key` to the returned keys gives back the backend's
keys. When the backend fails, the result is no keys and the backend's
error. -/
theorem Keys_spec (n : Namespace σ) (ctx : Context) (pattern : String) (s : σ) :
    (n.traced.Keys ctx pattern (s, [])).2.2 = [Call.Keys ctx (n.key pattern)] ∧
      (n.traced.Keys ctx pattern (s, [])).1 = (n.Keys ctx pattern s).1 ∧
      (n.Keys ctx pattern s).2 = (n.cache.Keys ctx (n.key pattern) s).2 ∧
      (∀ (keys : List String) (s1 : σ),
        n.cache.Keys ctx (n.key pattern) s = ((keys, none), s1) →
          (n.Keys ctx pattern s).1 = (keys.map n.stripPrefix, none) ∧
          (n.Keys ctx pattern s).1.1.length = keys.length ∧
          (∀ i : Nat, (n.Keys ctx pattern s).1.1[i]? = keys[i]?.map n.stripPrefix) ∧
          (n.pfx ≠ "" → (∀ k ∈ keys, HasPrefix k (n.pfx ++ n.sep) = true) →
            (n.Keys ctx pattern s).1.1.map n.key = keys)) ∧
      (∀ (keys : List String) (e : GoError) (s1 : σ),
        n.cache.Keys ctx (n.key pattern) s = ((keys, some e), s1) →
          (n.Keys ctx pattern s).1 = ([], some e)) := by
  have htr : n.traced.cache.Keys ctx (n.traced.key pattern) (s, []) =
      ((n.cache.Keys ctx (n.key pattern) s).1,
        ((n.cache.Keys ctx (n.key pattern) s).2, [Call.Keys ctx (n.key pattern)])) := rfl
  have hstrip : n.traced.stripPrefix = n.stripPrefix := rfl
  refine ⟨?_, ?_, ?_, ?_, ?_⟩
  · simp only [Keys, htr]
    rcases n.cache.Keys ctx (n.key pattern) s with ⟨⟨keys, err⟩, s1⟩
    cases err <;> rfl
  · simp only [Keys, htr, hstrip]
    rcases n.cache.Keys ctx (n.key pattern) s with ⟨⟨keys, err⟩, s1⟩
    cases err <;> rfl
  · simp only [Keys]
    rcases n.cache.Keys ctx (n.key pattern) s with ⟨⟨keys, err⟩, s1⟩
    cases err <;> rfl
  · intro keys s1 hk
    have hres : (n.Keys ctx pattern s).1 = (keys.map n.stripPrefix, none) := by
      simp only [Keys, hk]
      rw [foldl_set_enum n.stripPrefix "" keys]
    refine ⟨hres, ?_, ?_, ?_⟩
    · rw [hres]
      simp
    · intro i
      rw [hres]
      simp
    · intro hp hall
      rw [hres]
      simp only [List.map_map]
      conv_rhs => rw [← List.map_id keys]
      apply List.map_congr_left
      intro k hk2
      obtain ⟨t, ht⟩ := (HasPrefix_iff _ _).mp (hall k hk2)
      have hstrip : n.stripPrefix k = t := by
        rw [ht]
        simp only [stripPrefix, hp, if_false, HasPrefix_append, if_true]
        exact TrimPrefix_append _ _
      simp only [Function.comp, hstrip, id]
      rw [ht]
      simp [key, hp]
  · intro keys e s1 hk
    simp only [Keys, hk]

/-- Instance of C13 over the map backend holding `app:x`, `app:y` and
`other:z`: `Keys "*"` through the namespace `app` asks the backend for `app:*`
and returns `x` and `y`, and `key` takes these back to `app:x` and `app:y`. -/
theorem Keys_spec_witness :
    (appNs.traced.Keys ctx0 "*"
        ([("app:x", Value.int 1), ("app:y", Value.int 2), ("other:z", Value.int 3)], [])).2.2 =
        [Call.Keys ctx0 "app:*"] ∧
      (appNs.Keys ctx0 "*"
        [("app:x", Value.int 1), ("app:y", Value.int 2), ("other:z", Value.int 3)]).1 =
        (["x", "y"], none) ∧
      (appNs.Keys ctx0 "*"
        [("app:x", Value.int 1), ("app:y", Value.int 2), ("other:z", Value.int 3)]).1.1.map
          appNs.key = ["app:x", "app:y"] :=
  ⟨(Keys_spec appNs ctx0 "*"
      [("app:x", Value.int 1), ("app:y", Value.int 2), ("other:z", Value.int 3)]).1,
    ((Keys_spec appNs ctx0 "*"
      [("app:x", Value.int 1), ("app:y", Value.int 2), ("other:z", Value.int 3)]).2.2.2.1
      ["app:x", "app:y"]
      [("app:x", Value.int 1), ("app:y", Value.int 2), ("other:z", Value.int 3)] (by decide)).1,
    ((Keys_spec appNs ctx0 "*"
      [("app:x", Value.int 1), ("app:y", Value.int 2), ("other:z", Value.int 3)]).2.2.2.1
      ["app:x", "app:y"]
      [("app:x", Value.int 1), ("app:y", Value.int 2), ("other:z", Value.int 3)]
      (by decide)).2.2.2 (by decide) (by decide)⟩

end Namespace

/-! ## Single-key operations -/

theorem IsNotFound_of_eq (err : Option GoError) (h : err = some GoError.ErrNotFound) :
    IsNotFound err = true := by
  subst h
  rfl

namespace Namespace

variable {σ : Type}

/-- C14. Each of the twenty-four single-key operations of a namespace, on the
key `k`, returns exactly what the same operation of the backend returns on
the key `key k` with the other arguments as given (value, error and backend
state); on the call log of the backend it adds exactly one call, that
operation on `key k` with the same arguments; and when the backend's error is
`ErrNotFound`, `IsNotFound` holds of the error the namespace returns. -/
theorem single_key_forwarding (n : Namespace σ) (ctx : Context) (k : String) (s : σ)
    (log : List Call) (value : Value) (expiration : Duration) (delta : Int) (field : String)
    (fields : List String) (values : List Value) :
    (n.Get ctx k s = n.cache.Get ctx (n.key k) s ∧
        n.traced.Get ctx k (s, log) =
          ((n.cache.Get ctx (n.key k) s).1,
            ((n.cache.Get ctx (n.key k) s).2, log ++ [Call.Get ctx (n.key k)])) ∧
        ((n.cache.Get ctx (n.key k) s).1.2 = some GoError.ErrNotFound →
          IsNotFound (n.Get ctx k s).1.2 = true)) ∧
      (n.GetBytes ctx k s = n.cache.GetBytes ctx (n.key k) s ∧
        n.traced.GetBytes ctx k (s, log) =
          ((n.cache.GetBytes ctx (n.key k) s).1,
            ((n.cache.GetBytes ctx (n.key k) s).2, log ++ [Call.GetBytes ctx (n.key k)])) ∧
        ((n.cache.GetBytes ctx (n.key k) s).1.2 = some GoError.ErrNotFound →
          IsNotFound (n.GetBytes ctx k s).1.2 = true)) ∧
      (n.Set ctx k value expiration s = n.cache.Set ctx (n.key k) value expiration s ∧
        n.traced.Set ctx k value expiration (s, log) =
          ((n.cache.Set ctx (n.key k) value expiration s).1,
            ((n.cache.Set ctx (n.key k) value expiration s).2, log ++ [Call.Set ctx (n.key k) value expiration])) ∧
        ((n.cache.Set ctx (n.key k) value expiration s).1 = some GoError.ErrNotFound →
          IsNotFound (n.Set ctx k value expiration s).1 = true)) ∧
      (n.SetNX ctx k value expiration s = n.cache.SetNX ctx (n.key k) value expiration s ∧
        n.traced.SetNX ctx k value expiration (s, log) =
          ((n.cache.SetNX ctx (n.key k) value expiration s).1,
            ((n.cache.SetNX ctx (n.key k) value expiration s).2, log ++ [Call.SetNX ctx (n.key k) value expiration])) ∧
        ((n.cache.SetNX ctx (n.key k) value expiration s).1.2 = some GoError.ErrNotFound →
          IsNotFound (n.SetNX ctx k value expiration s).1.2 = true)) ∧
      (n.Delete ctx k s = n.cache.Delete ctx (n.key k) s ∧
        n.traced.Delete ctx k (s, log) =
          ((n.cache.Delete ctx (n.key k) s).1,
            ((n.cache.Delete ctx (n.key k) s).2, log ++ [Call.Delete ctx (n.key k)])) ∧
        ((n.cache.Delete ctx (n.key k) s).1 = some GoError.ErrNotFound →
          IsNotFound (n.Delete ctx k s).1 = true)) ∧
      (n.Incr ctx k s = n.cache.Incr ctx (n.key k) s ∧
        n.traced.Incr ctx k (s, log) =
          ((n.cache.Incr ctx (n.key k) s).1,
            ((n.cache.Incr ctx (n.key k) s).2, log ++ [Call.Incr ctx (n.key k)])) ∧
        ((n.cache.Incr ctx (n.key k) s).1.2 = some GoError.ErrNotFound →
          IsNotFound (n.Incr ctx k s).1.2 = true)) ∧
      (n.IncrBy ctx k delta s = n.cache.IncrBy ctx (n.key k) delta s ∧
        n.traced.IncrBy ctx k delta (s, log) =
          ((n.cache.IncrBy ctx (n.key k) delta s).1,
            ((n.cache.IncrBy ctx (n.key k) delta s).2, log ++ [Call.IncrBy ctx (n.key k) delta])) ∧
        ((n.cache.IncrBy ctx (n.key k) delta s).1.2 = some GoError.ErrNotFound →
          IsNotFound (n.IncrBy ctx k delta s).1.2 = true)) ∧
      (n.Decr ctx k s = n.cache.Decr ctx (n.key k) s ∧
        n.traced.Decr ctx k (s, log) =
          ((n.cache.Decr ctx (n.key k) s).1,
            ((n.cache.Decr ctx (n.key k) s).2, log ++ [Call.Decr ctx (n.key k)])) ∧
        ((n.cache.Decr ctx (n.key k) s).1.2 = some GoError.ErrNotFound →
          IsNotFound (n.Decr ctx k s).1.2 = true)) ∧
      (n.DecrBy ctx k delta s = n.cache.DecrBy ctx (n.key k) delta s ∧
        n.traced.DecrBy ctx k delta (s, log) =
          ((n.cache.DecrBy ctx (n.key k) delta s).1,
            ((n.cache.DecrBy ctx (n.key k) delta s).2, log ++ [Call.DecrBy ctx (n.key k) delta])) ∧
        ((n.cache.DecrBy ctx (n.key k) delta s).1.2 = some GoError.ErrNotFound →
          IsNotFound (n.DecrBy ctx k delta s).1.2 = true)) ∧
      (n.TTL ctx k s = n.cache.TTL ctx (n.key k) s ∧
        n.traced.TTL ctx k (s, log) =
          ((n.cache.TTL ctx (n.key k) s).1,
            ((n.cache.TTL ctx (n.key k) s).2, log ++ [Call.TTL ctx (n.key k)])) ∧
        ((n.cache.TTL ctx (n.key k) s).1.2 = some GoError.ErrNotFound →
          IsNotFound (n.TTL ctx k s).1.2 = true)) ∧
      (n.Expire ctx k expiration s = n.cache.Expire ctx (n.key k) expiration s ∧
        n.traced.Expire ctx k expiration (s, log) =
          ((n.cache.Expire ctx (n.key k) expiration s).1,
            ((n.cache.Expire ctx (n.key k) expiration s).2, log ++ [Call.Expire ctx (n.key k) expiration])) ∧
        ((n.cache.Expire ctx (n.key k) expiration s).1 = some GoError.ErrNotFound →
          IsNotFound (n.Expire ctx k expiration s).1 = true)) ∧
      (n.Persist ctx k s = n.cache.Persist ctx (n.key k) s ∧
        n.traced.Persist ctx k (s, log) =
          ((n.cache.Persist ctx (n.key k) s).1,
            ((n.cache.Persist ctx (n.key k) s).2, log ++ [Call.Persist ctx (n.key k)])) ∧
        ((n.cache.Persist ctx (n.key k) s).1 = some GoError.ErrNotFound →
          IsNotFound (n.Persist ctx k s).1 = true)) ∧
      (n.HGet ctx k field s = n.cache.HGet ctx (n.key k) field s ∧
        n.traced.HGet ctx k field (s, log) =
          ((n.cache.HGet ctx (n.key k) field s).1,
            ((n.cache.HGet ctx (n.key k) field s).2, log ++ [Call.HGet ctx (n.key k) field])) ∧
        ((n.cache.HGet ctx (n.key k) field s).1.2 = some GoError.ErrNotFound →
          IsNotFound (n.HGet ctx k field s).1.2 = true)) ∧
      (n.HSet ctx k field value s = n.cache.HSet ctx (n.key k) field value s ∧
        n.traced.HSet ctx k field value (s, log) =
          ((n.cache.HSet ctx (n.key k) field value s).1,
            ((n.cache.HSet ctx (n.key k) field value s).2, log ++ [Call.HSet ctx (n.key k) field value])) ∧
        ((n.cache.HSet ctx (n.key k) field value s).1 = some GoError.ErrNotFound →
          IsNotFound (n.HSet ctx k field value s).1 = true)) ∧
      (n.HGetAll ctx k s = n.cache.HGetAll ctx (n.key k) s ∧
        n.traced.HGetAll ctx k (s, log) =
          ((n.cache.HGetAll ctx (n.key k) s).1,
            ((n.cache.HGetAll ctx (n.key k) s).2, log ++ [Call.HGetAll ctx (n.key k)])) ∧
        ((n.cache.HGetAll ctx (n.key k) s).1.2 = some GoError.ErrNotFound →
          IsNotFound (n.HGetAll ctx k s).1.2 = true)) ∧
      (n.HDel ctx k fields s = n.cache.HDel ctx (n.key k) fields s ∧
        n.traced.HDel ctx k fields (s, log) =
          ((n.cache.HDel ctx (n.key k) fields s).1,
            ((n.cache.HDel ctx (n.key k) fields s).2, log ++ [Call.HDel ctx (n.key k) fields])) ∧
        ((n.cache.HDel ctx (n.key k) fields s).1 = some GoError.ErrNotFound →
          IsNotFound (n.HDel ctx k fields s).1 = true)) ∧
      (n.LPush ctx k values s = n.cache.LPush ctx (n.key k) values s ∧
        n.traced.LPush ctx k values (s, log) =
          ((n.cache.LPush ctx (n.key k) values s).1,
            ((n.cache.LPush ctx (n.key k) values s).2, log ++ [Call.LPush ctx (n.key k) values])) ∧
        ((n.cache.LPush ctx (n.key k) values s).1 = some GoError.ErrNotFound →
          IsNotFound (n.LPush ctx k values s).1 = true)) ∧
      (n.RPush ctx k values s = n.cache.RPush ctx (n.key k) values s ∧
        n.traced.RPush ctx k values (s, log) =
          ((n.cache.RPush ctx (n.key k) values s).1,
            ((n.cache.RPush ctx (n.key k) values s).2, log ++ [Call.RPush ctx (n.key k) values])) ∧
        ((n.cache.RPush ctx (n.key k) values s).1 = some GoError.ErrNotFound →
          IsNotFound (n.RPush ctx k values s).1 = true)) ∧
      (n.LPop ctx k s = n.cache.LPop ctx (n.key k) s ∧
        n.traced.LPop ctx k (s, log) =
          ((n.cache.LPop ctx (n.key k) s).1,
            ((n.cache.LPop ctx (n.key k) s).2, log ++ [Call.LPop ctx (n.key k)])) ∧
        ((n.cache.LPop ctx (n.key k) s).1.2 = some GoError.ErrNotFound →
          IsNotFound (n.LPop ctx k s).1.2 = true)) ∧
      (n.RPop ctx k s = n.cache.RPop ctx (n.key k) s ∧
        n.traced.RPop ctx k (s, log) =
          ((n.cache.RPop ctx (n.key k) s).1,
            ((n.cache.RPop ctx (n.key k) s).2, log ++ [Call.RPop ctx (n.key k)])) ∧
        ((n.cache.RPop ctx (n.key k) s).1.2 = some GoError.ErrNotFound →
          IsNotFound (n.RPop ctx k s).1.2 = true)) ∧
      (n.LLen ctx k s = n.cache.LLen ctx (n.key k) s ∧
        n.traced.LLen ctx k (s, log) =
          ((n.cache.LLen ctx (n.key k) s).1,
            ((n.cache.LLen ctx (n.key k) s).2, log ++ [Call.LLen ctx (n.key k)])) ∧
        ((n.cache.LLen ctx (n.key k) s).1.2 = some GoError.ErrNotFound →
          IsNotFound (n.LLen ctx k s).1.2 = true)) ∧
      (n.SAdd ctx k values s = n.cache.SAdd ctx (n.key k) values s ∧
        n.traced.SAdd ctx k values (s, log) =
          ((n.cache.SAdd ctx (n.key k) values s).1,
            ((n.cache.SAdd ctx (n.key k) values s).2, log ++ [Call.SAdd ctx (n.key k) values])) ∧
        ((n.cache.SAdd ctx (n.key k) values s).1 = some GoError.ErrNotFound →
          IsNotFound (n.SAdd ctx k values s).1 = true)) ∧
      (n.SMembers ctx k s = n.cache.SMembers ctx (n.key k) s ∧
        n.traced.SMembers ctx k (s, log) =
          ((n.cache.SMembers ctx (n.key k) s).1,
            ((n.cache.SMembers ctx (n.key k) s).2, log ++ [Call.SMembers ctx (n.key k)])) ∧
        ((n.cache.SMembers ctx (n.key k) s).1.2 = some GoError.ErrNotFound →
          IsNotFound (n.SMembers ctx k s).1.2 = true)) ∧
      (n.SRem ctx k values s = n.cache.SRem ctx (n.key k) values s ∧
        n.traced.SRem ctx k values (s, log) =
          ((n.cache.SRem ctx (n.key k) values s).1,
            ((n.cache.SRem ctx (n.key k) values s).2, log ++ [Call.SRem ctx (n.key k) values])) ∧
        ((n.cache.SRem ctx (n.key k) values s).1 = some GoError.ErrNotFound →
          IsNotFound (n.SRem ctx k values s).1 = true)) := by
  repeat' (first | exact ⟨rfl, rfl, fun h => IsNotFound_of_eq _ h⟩ | constructor)

/-- Instance of C14 over the empty map backend: `Get "x"` through the
namespace `app` is the one backend call `Get "app:x"`, the backend answers
`ErrNotFound`, and `IsNotFound` holds of the error returned. -/
theorem single_key_forwarding_witness :
    (appNs.traced.Get ctx0 "x" ([], [])).2.2 = [Call.Get ctx0 "app:x"] ∧
      (appNs.Get ctx0 "x" []).1.2 = some GoError.ErrNotFound ∧
      IsNotFound (appNs.Get ctx0 "x" []).1.2 = true :=
  ⟨congrArg (fun r => r.2.2)
      (single_key_forwarding appNs ctx0 "x" [] [] Value.nil 0 0 "" [] []).1.2.1,
    by decide,
    (single_key_forwarding appNs ctx0 "x" [] [] Value.nil 0 0 "" [] []).1.2.2 (by decide)⟩

end Namespace

/-! ## Key spaces of two namespaces -/

namespace Namespace

variable {σ : Type}

/-- C15 as stated fails: the namespaces with prefixes `a` and `a:b` (the
second is what `SubNamespace "b"` of the first has) share the backend and the
separator `:`, their prefixes are distinct and non-empty, and the key `b:x` of
the first is the same backend key as the key `x` of the second. -/
theorem key_collision_counterexample :
    aNs.pfx ≠ "" ∧ abNs.pfx ≠ "" ∧ aNs.pfx ≠ abNs.pfx ∧ aNs.sep = abNs.sep ∧
      aNs.pfx ++ aNs.sep ++ "b:x" = abNs.pfx ++ abNs.sep ++ "x" ∧
      aNs.key "b:x" = abNs.key "x" ∧
      (aNs.SubNamespace "b" []).pfx = abNs.pfx := by
  decide

/-- C15, amended. For two namespaces with the same separator and non-empty
prefixes `p1` and `p2`: some key of the first and some key of the second are
the same backend key exactly when one of `p1 + sep` and `p2 + sep` starts with
the other. So when neither starts with the other, `p1 + sep + k1` and
`p2 + sep + k2` differ for all keys `k1` and `k2`. -/
theorem key_disjoint_iff (n1 n2 : Namespace σ) (hsep : n1.sep = n2.sep) (h1 : n1.pfx ≠ "")
    (h2 : n2.pfx ≠ "") :
    ((∃ k1 k2 : String, n1.key k1 = n2.key k2) ↔
        (HasPrefix (n1.pfx ++ n1.sep) (n2.pfx ++ n1.sep) = true ∨
          HasPrefix (n2.pfx ++ n1.sep) (n1.pfx ++ n1.sep) = true)) ∧
      (HasPrefix (n1.pfx ++ n1.sep) (n2.pfx ++ n1.sep) = false →
        HasPrefix (n2.pfx ++ n1.sep) (n1.pfx ++ n1.sep) = false →
        ∀ k1 k2 : String, n1.pfx ++ n1.sep ++ k1 ≠ n2.pfx ++ n1.sep ++ k2 ∧
          n1.key k1 ≠ n2.key k2) := by
  have hk1 : ∀ k : String, n1.key k = n1.pfx ++ n1.sep ++ k := fun k => by simp [key, h1]
  have hk2 : ∀ k : String, n2.key k = n2.pfx ++ n1.sep ++ k := fun k => by
    simp [key, h2, hsep]
  have hiff : (∃ k1 k2 : String, n1.key k1 = n2.key k2) ↔
      (HasPrefix (n1.pfx ++ n1.sep) (n2.pfx ++ n1.sep) = true ∨
        HasPrefix (n2.pfx ++ n1.sep) (n1.pfx ++ n1.sep) = true) := by
    constructor
    · rintro ⟨k1, k2, hk⟩
      rw [hk1, hk2] at hk
      have hd : (n1.pfx ++ n1.sep).data ++ k1.data = (n2.pfx ++ n1.sep).data ++ k2.data := by
        have := congrArg String.data hk
        simpa [String.data_append] using this
      have hp1 : (n1.pfx ++ n1.sep).data <+: (n1.pfx ++ n1.sep).data ++ k1.data :=
        List.prefix_append _ _
      have hp2 : (n2.pfx ++ n1.sep).data <+: (n1.pfx ++ n1.sep).data ++ k1.data := by
        rw [hd]
        exact List.prefix_append _ _
      rcases List.prefix_or_prefix_of_prefix hp1 hp2 with hp | hp
      · right
        obtain ⟨t, ht⟩ := hp
        exact (HasPrefix_iff _ _).mpr ⟨⟨t⟩, String.ext (by
          simp only [String.data_append] at ht ⊢
          exact ht.symm)⟩
      · left
        obtain ⟨t, ht⟩ := hp
        exact (HasPrefix_iff _ _).mpr ⟨⟨t⟩, String.ext (by
          simp only [String.data_append] at ht ⊢
          exact ht.symm)⟩
    · rintro (hp | hp)
      · obtain ⟨t, ht⟩ := (HasPrefix_iff _ _).mp hp
        refine ⟨"", t, ?_⟩
        rw [hk1, hk2, ← ht]
        exact String.ext (by simp [String.data_append])
      · obtain ⟨t, ht⟩ := (HasPrefix_iff _ _).mp hp
        refine ⟨t, "", ?_⟩
        rw [hk1, hk2, ← ht]
        exact String.ext (by simp [String.data_append])
  refine ⟨hiff, ?_⟩
  intro hn1 hn2 k1 k2
  have hne : n1.key k1 ≠ n2.key k2 := by
    intro he
    rcases hiff.mp ⟨k1, k2, he⟩ with hp | hp
    · rw [hn1] at hp
      cases hp
    · rw [hn2] at hp
      cases hp
  refine ⟨?_, hne⟩
  rw [← hk1, ← hk2]
  exact hne

/-- Instance of C15 (amended): with the separator `:`, neither of `app:` and
`a:` starts with the other, and the key `x` is `app:x` in one namespace and
`a:x` in the other. -/
theorem key_disjoint_iff_witness :
    appNs.sep = aNs.sep ∧ appNs.pfx ≠ "" ∧ aNs.pfx ≠ "" ∧
      (∀ k1 k2 : String, appNs.pfx ++ appNs.sep ++ k1 ≠ aNs.pfx ++ appNs.sep ++ k2 ∧
        appNs.key k1 ≠ aNs.key k2) :=
  ⟨rfl, by decide, by decide,
    (key_disjoint_iff appNs aNs rfl (by decide) (by decide)).2 (by decide) (by decide)⟩

end Namespace

/-! ## The read lock in `New` -/

section registry

variable {κ ω : Type}

/-- C16 as stated fails: in `New` for the registered name `mem` the events are
`RLock`, the invocation of the constructor, `RUnlock`, in this order. No
`RUnlock` comes before the invocation, and one read lock is held when the
constructor is invoked. -/
theorem New_invokes_under_read_lock_counterexample :
    (New.steps memRegistry "mem" DefaultConfig).2 =
        [LockEvent.RLock, LockEvent.Invoke "mem" DefaultConfig, LockEvent.RUnlock] ∧
      LockEvent.RUnlock ∉ (New.steps memRegistry "mem" DefaultConfig).2.takeWhile
        (fun e => decide (e ≠ LockEvent.Invoke "mem" DefaultConfig)) ∧
      readLocksHeld ((New.steps memRegistry "mem" DefaultConfig).2.takeWhile
        (fun e => decide (e ≠ LockEvent.Invoke "mem" DefaultConfig))) = 1 := by
  decide

/-- C16, amended. `New` holds the read lock for its whole body. For a
registered name the events are: the read lock is acquired, the constructor is
invoked (one read lock is held at that moment), the read lock is released.
For a name that is not registered the read lock is acquired and released and
no constructor is invoked. In both cases no read lock is held at the end, and
the results are those of `New`. -/
theorem New_steps_spec (st : Registry κ ω) (driver : String) (cfg : Config) :
    (New.steps st driver cfg).1 = New st driver cfg ∧
      readLocksHeld (New.steps st driver cfg).2 = 0 ∧
      (∀ c : Constructor κ ω, GoMap.lookup st.drivers driver = some c →
        (New.steps st driver cfg).2 =
          [LockEvent.RLock, LockEvent.Invoke driver cfg, LockEvent.RUnlock] ∧
        readLocksHeld ((New.steps st driver cfg).2.takeWhile
          (fun e => decide (e ≠ LockEvent.Invoke driver cfg))) = 1) ∧
      (GoMap.lookup st.drivers driver = none →
        (New.steps st driver cfg).2 = [LockEvent.RLock, LockEvent.RUnlock]) := by
  cases h : GoMap.lookup st.drivers driver with
  | none =>
    refine ⟨?_, ?_, ?_, ?_⟩
    · simp [New.steps, New, h]
    · simp [New.steps, h, readLocksHeld]
    · intro c hc
      cases hc
    · intro _
      simp [New.steps, h]
  | some c =>
    have hev : (New.steps st driver cfg).2 =
        [LockEvent.RLock, LockEvent.Invoke driver cfg, LockEvent.RUnlock] := by
      simp [New.steps, h]
    refine ⟨?_, ?_, ?_, ?_⟩
    · simp [New.steps, New, h]
    · rw [hev]
      simp [readLocksHeld]
    · intro c2 _
      refine ⟨hev, ?_⟩
      rw [hev]
      simp [List.takeWhile, readLocksHeld]
    · intro hc
      cases hc

/-- Instance of C16 (amended) at the registry that holds `mem`: for `mem` the
constructor is invoked between `RLock` and `RUnlock`; for `redis`, which is
not registered, the events are `RLock`, `RUnlock`. -/
theorem New_steps_spec_witness :
    (New.steps memRegistry "mem" DefaultConfig).2 =
        [LockEvent.RLock, LockEvent.Invoke "mem" DefaultConfig, LockEvent.RUnlock] ∧
      (New.steps memRegistry "redis" DefaultConfig).2 = [LockEvent.RLock, LockEvent.RUnlock] :=
  ⟨((New_steps_spec memRegistry "mem" DefaultConfig).2.2.1 (countingCtor 1) rfl).1,
    (New_steps_spec memRegistry "redis" DefaultConfig).2.2.2 rfl⟩

end registry

/-! ## The three outcomes of `FlushNamespace` -/

/-- C17. `FlushNamespace` with a non-empty prefix, when the backend's `Keys`
call for `prefix + sep + "*"` returns the list `keys`, the error `err` and the
backend state `s1`. If `err` is an error, that error is returned and `Keys` is
the only call. If there is no error and the list is empty, `nil` is returned,
`Keys` is the only call and the backend state is `s1`, as `Keys` left it.
Otherwise `Keys` is followed by one `MDelete` call, given exactly `keys`, and
the result of that call is returned. -/
theorem FlushNamespace_outcomes {σ : Type} (n : Namespace σ) (ctx : Context) (s s1 : σ)
    (keys : List String) (err : Option GoError) (h : n.pfx ≠ "")
    (hk : n.cache.Keys ctx (n.pfx ++ n.sep ++ "*") s = ((keys, err), s1)) :
    (n.traced.FlushNamespace ctx (s, [])).1 = (n.FlushNamespace ctx s).1 ∧
      (n.traced.FlushNamespace ctx (s, [])).2.1 = (n.FlushNamespace ctx s).2 ∧
      (∀ e : GoError, err = some e →
        n.FlushNamespace ctx s = (some e, s1) ∧
        (n.traced.FlushNamespace ctx (s, [])).2.2 =
          [Call.Keys ctx (n.pfx ++ n.sep ++ "*")]) ∧
      (err = none → keys = [] →
        n.FlushNamespace ctx s = (none, s1) ∧
        (n.traced.FlushNamespace ctx (s, [])).2.2 =
          [Call.Keys ctx (n.pfx ++ n.sep ++ "*")]) ∧
      (err = none → keys ≠ [] →
        n.FlushNamespace ctx s = n.cache.MDelete ctx keys s1 ∧
        (n.traced.FlushNamespace ctx (s, [])).2.2 =
          [Call.Keys ctx (n.pfx ++ n.sep ++ "*"), Call.MDelete ctx keys]) := by
  have htr := FlushNamespace_traced_nonempty n ctx s [] h
  rw [hk] at htr
  refine ⟨?_, ?_, ?_, ?_, ?_⟩
  · rw [htr]
  · rw [htr]
  · rintro e rfl
    constructor
    · simp [Namespace.FlushNamespace, h, hk]
    · rw [htr]
      simp
  · rintro rfl rfl
    constructor
    · simp [Namespace.FlushNamespace, h, hk]
    · rw [htr]
      simp
  · rintro rfl hne
    constructor
    · simp [Namespace.FlushNamespace, h, hk, hne]
    · rw [htr]
      simp [hne]

/-- Instance of C17 over the map backend holding `app:x` and `other:z`, with
prefix `app`: `Keys "app:*"` returns `app:x`, and the calls are that `Keys`
followed by `MDelete` of `app:x`. -/
theorem FlushNamespace_outcomes_witness :
    appNs.pfx ≠ "" ∧
      mapCache.Keys ctx0 "app:*" [("app:x", Value.int 1), ("other:z", Value.int 3)] =
        ((["app:x"], none), [("app:x", Value.int 1), ("other:z", Value.int 3)]) ∧
      (appNs.traced.FlushNamespace ctx0
          ([("app:x", Value.int 1), ("other:z", Value.int 3)], [])).2.2 =
        [Call.Keys ctx0 "app:*", Call.MDelete ctx0 ["app:x"]] :=
  ⟨by decide, by decide,
    ((FlushNamespace_outcomes appNs ctx0 [("app:x", Value.int 1), ("other:z", Value.int 3)]
      [("app:x", Value.int 1), ("other:z", Value.int 3)] ["app:x"] none (by decide)
      (by decide)).2.2.2.2 rfl (by decide)).2⟩

/-! ## Batch operations -/

theorem GoMap.set_of_lookup_none {α : Type} (m : GoMap α) (k : String) (v : α)
    (h : GoMap.lookup m k = none) : GoMap.set m k v = m ++ [(k, v)] := by
  induction m with
  | nil => simp [GoMap.set]
  | cons kv rest ih =>
    obtain ⟨k1, v1⟩ := kv
    by_cases h1 : k1 = k
    · simp [GoMap.lookup, h1] at h
    · simp only [GoMap.lookup, h1, if_false] at h
      simp [GoMap.set, h1, ih h]

namespace Namespace

variable {σ : Type}

/-- Two local keys with the same backend key are the same key. -/
theorem key_injective (n : Namespace σ) (k1 k2 : String) (h : n.key k1 = n.key k2) :
    k1 = k2 := by
  by_cases hp : n.pfx = ""
  · simpa [key, hp] using h
  · simp only [key, hp, if_false] at h
    have hd := congrArg String.data h
    simp only [String.data_append] at hd
    exact String.ext (List.append_cancel_left hd)

/-- The loop of `MSet` on a map without repeated keys, started from a map
`acc` that holds none of the rewritten keys, appends the rewritten entries in
the order visited. -/
theorem foldl_set_key (n : Namespace σ) (pairs acc : GoMap Value)
    (hnd : (GoMap.keys pairs).Nodup)
    (hfresh : ∀ kv ∈ pairs, n.key kv.1 ∉ GoMap.keys acc) :
    pairs.foldl (fun m kv => GoMap.set m (n.key kv.1) kv.2) acc =
      acc ++ pairs.map (fun kv => (n.key kv.1, kv.2)) := by
  induction pairs generalizing acc with
  | nil => simp
  | cons kv rest ih =>
    have hnd2 : kv.1 ∉ GoMap.keys rest ∧ (GoMap.keys rest).Nodup := by
      simpa [GoMap.keys] using hnd
    have hnone : GoMap.lookup acc (n.key kv.1) = none :=
      (GoMap.lookup_eq_none_iff _ _).mpr (hfresh kv (List.mem_cons_self _ _))
    have hfresh2 : ∀ kv2 ∈ rest, n.key kv2.1 ∉ GoMap.keys (acc ++ [(n.key kv.1, kv.2)]) := by
      intro kv2 hkv2 hmem
      simp only [GoMap.keys, List.map_append, List.map_cons, List.map_nil, List.mem_append,
        List.mem_singleton] at hmem
      rcases hmem with hmem | hmem
      · exact hfresh kv2 (List.mem_cons_of_mem _ hkv2) hmem
      · have heq : kv2.1 = kv.1 := n.key_injective _ _ hmem
        apply hnd2.1
        rw [← heq]
        exact List.mem_map_of_mem _ hkv2
    simp only [List.foldl_cons, GoMap.set_of_lookup_none _ _ _ hnone]
    rw [ih (acc ++ [(n.key kv.1, kv.2)]) hnd2.2 hfresh2]
    simp

/-- C18. `MSet` on a mapping `pairs` (no key occurs twice) hands the backend,
in one `MSet` call, a mapping with as many entries as `pairs` and no key
twice, in which every entry `(k, v)` of `pairs` appears as `(key k, v)` and
every entry is of that form. Two local keys with the same backend key are the
same key. -/
theorem MSet_spec (n : Namespace σ) (ctx : Context) (pairs : GoMap Value) (s : σ)
    (hnd : (GoMap.keys pairs).Nodup) :
    ∃ sent : GoMap Value,
      n.MSet ctx pairs s = n.cache.MSet ctx sent s ∧
      n.traced.MSet ctx pairs (s, []) =
        ((n.cache.MSet ctx sent s).1, ((n.cache.MSet ctx sent s).2, [Call.MSet ctx sent])) ∧
      sent.length = pairs.length ∧
      (GoMap.keys sent).Nodup ∧
      (∀ (k : String) (v : Value), (k, v) ∈ pairs → (n.key k, v) ∈ sent) ∧
      (∀ e ∈ sent, ∃ (k : String) (v : Value), (k, v) ∈ pairs ∧ e = (n.key k, v)) ∧
      (∀ k1 k2 : String, n.key k1 = n.key k2 → k1 = k2) := by
  have hfold : pairs.foldl (fun m kv => GoMap.set m (n.key kv.1) kv.2) [] =
      pairs.map (fun kv => (n.key kv.1, kv.2)) := by
    have := n.foldl_set_key pairs [] hnd (fun kv _ => by simp [GoMap.keys])
    simpa using this
  have hfold2 : pairs.foldl (fun m kv => GoMap.set m (n.traced.key kv.1) kv.2) [] =
      pairs.map (fun kv => (n.key kv.1, kv.2)) := hfold
  refine ⟨pairs.map (fun kv => (n.key kv.1, kv.2)), ?_, ?_, ?_, ?_, ?_, ?_, ?_⟩
  · simp only [MSet, hfold]
  · simp only [MSet, hfold2]
    rfl
  · simp
  · have hkeys : GoMap.keys (pairs.map (fun kv => (n.key kv.1, kv.2))) =
        (GoMap.keys pairs).map n.key := by
      simp [GoMap.keys, List.map_map, Function.comp]
    rw [hkeys]
    exact List.Nodup.map (fun a b hab => n.key_injective a b hab) hnd
  · intro k v hkv
    exact List.mem_map.mpr ⟨(k, v), hkv, rfl⟩
  · intro e he
    obtain ⟨kv, hkv, rfl⟩ := List.mem_map.mp he
    exact ⟨kv.1, kv.2, hkv, rfl⟩
  · exact n.key_injective

/-- Instance of C18: the mapping `a ↦ 1`, `b ↦ 2` through the namespace `app`
reaches the backend as `app:a ↦ 1`, `app:b ↦ 2`. -/
theorem MSet_spec_witness :
    (GoMap.keys [("a", Value.int 1), ("b", Value.int 2)]).Nodup ∧
      ∃ sent : GoMap Value,
        appNs.MSet ctx0 [("a", Value.int 1), ("b", Value.int 2)] [] =
          appNs.cache.MSet ctx0 sent [] ∧
        sent.length = 2 ∧ ("app:a", Value.int 1) ∈ sent ∧ ("app:b", Value.int 2) ∈ sent :=
  ⟨by decide,
    match MSet_spec appNs ctx0 [("a", Value.int 1), ("b", Value.int 2)] [] (by decide) with
    | ⟨sent, h1, _, h3, _, h5, _, _⟩ =>
      ⟨sent, h1, h3, h5 "a" (Value.int 1) (by decide), h5 "b" (Value.int 2) (by decide)⟩⟩

end Namespace

namespace Namespace

variable {σ : Type}

/-- C19. `keys ks` has the length of `ks` and its element at every index `i`
is `key` of the element of `ks` at `i`. `Exists`, `MGet` and `MDelete` make
one backend call each, with these rewritten keys in the caller's order, and
return what the backend returns, so that the `i`-th slot of the `MGet` result
is the backend's answer for `key` of the caller's `i`-th key. -/
theorem keys_spec (n : Namespace σ) (ctx : Context) (ks : List String) (s : σ) :
    (n.keys ks).length = ks.length ∧
      (∀ i : Nat, (n.keys ks)[i]? = ks[i]?.map n.key) ∧
      n.Exists ctx ks s = n.cache.Exists ctx (ks.map n.key) s ∧
      n.MGet ctx ks s = n.cache.MGet ctx (ks.map n.key) s ∧
      n.MDelete ctx ks s = n.cache.MDelete ctx (ks.map n.key) s ∧
      (n.traced.Exists ctx ks (s, [])).2.2 = [Call.Exists ctx (ks.map n.key)] ∧
      (n.traced.MGet ctx ks (s, [])).2.2 = [Call.MGet ctx (ks.map n.key)] ∧
      (n.traced.MDelete ctx ks (s, [])).2.2 = [Call.MDelete ctx (ks.map n.key)] := by
  have hk := n.keys_eq_map ks
  have hkt : n.traced.keys ks = ks.map n.key := hk
  refine ⟨?_, ?_, ?_, ?_, ?_, ?_, ?_, ?_⟩
  · rw [hk]
    simp
  · intro i
    rw [hk]
    simp
  · simp only [Exists, hk]
  · simp only [MGet, hk]
  · simp only [MDelete, hk]
  · simp only [Exists, hkt]
    rfl
  · simp only [MGet, hkt]
    rfl
  · simp only [MDelete, hkt]
    rfl

/-! ## Sub-namespaces and key rewriting -/

/-- A pattern followed by `*` matches every string that begins with the
characters of the pattern, wildcards among them included. -/
theorem globMatch_self_star (P t : List Char) : globMatch (P ++ ['*']) (P ++ t) = true := by
  induction P with
  | nil => simpa using globMatch_star t
  | cons c P ih =>
    by_cases hc : c = '*'
    · subst hc
      simp only [List.cons_append, globMatch, if_true, List.any_eq_true]
      exact ⟨P ++ t, by simp [List.tails], ih⟩
    · simp [globMatch, hc, ih]

/-- C20. For a non-empty sub-prefix `sub`, the key `k` of the sub-namespace
`SubNamespace sub` is the same backend key as the key `sub + sep + k` of the
parent. When the parent prefix is non-empty that backend key starts with the
parent's `prefix + sep`, and it matches the pattern `prefix + sep + "*"` that
the parent's `FlushNamespace` hands to `Keys`. -/
theorem SubNamespace_key (n : Namespace σ) (sub k : String) (hs : sub ≠ "") :
    (n.SubNamespace sub []).key k = n.key (sub ++ n.sep ++ k) ∧
      (n.pfx ≠ "" →
        HasPrefix ((n.SubNamespace sub []).key k) (n.pfx ++ n.sep) = true ∧
        globMatch (n.pfx ++ n.sep ++ "*").data ((n.SubNamespace sub []).key k).data = true) := by
  have hkey : (n.SubNamespace sub []).key k = n.key (sub ++ n.sep ++ k) := by
    by_cases hp : n.pfx = ""
    · simp [SubNamespace, key, hp, hs]
    · have hne : n.pfx ++ (n.sep ++ sub) ≠ "" := by
        intro he
        apply hp
        have hd := congrArg String.data he
        simp only [String.data_append] at hd
        exact String.ext (List.append_eq_nil.mp hd).1
      simp [SubNamespace, key, hp, hne, String.append_assoc]
  refine ⟨hkey, ?_⟩
  intro hp
  have hform : (n.SubNamespace sub []).key k = (n.pfx ++ n.sep) ++ (sub ++ n.sep ++ k) := by
    rw [hkey]
    simp [key, hp]
  constructor
  · rw [hform]
    exact HasPrefix_append _ _
  · rw [hform]
    have := globMatch_self_star (n.pfx ++ n.sep).data (sub ++ n.sep ++ k).data
    simpa [String.data_append] using this

/-- Instance of C20: under the namespace `app`, the key `1` of the
sub-namespace `user` is `app:user:1`, the parent's key for `user:1`, and it
starts with `app:`. -/
theorem SubNamespace_key_witness :
    "user" ≠ "" ∧ (appNs.SubNamespace "user" []).key "1" = "app:user:1" ∧
      appNs.key "user:1" = "app:user:1" ∧
      HasPrefix ((appNs.SubNamespace "user" []).key "1") "app:" = true :=
  ⟨by decide,
    (SubNamespace_key appNs "user" "1" (by decide)).1.trans (by decide),
    by decide,
    ((SubNamespace_key appNs "user" "1" (by decide)).2 (by decide)).1⟩

end Namespace
